import Mathlib

/-!
Verification model of `hashjoin.cpp` from dkondor/join-utils.

The program joins two text files: file 1 ("build side") is read whole into a
hash table keyed on a chosen field; file 2 ("probe side") is streamed and each
line is looked up in the table.  This file gives a shallow embedding of the
join engine and settles the specification claims against it.

Modelling conventions:
- a tokenized input line is a `List FieldStr` (the external `read_table_cpp.h`
  tokenizer is out of `src/`; it is modelled at its interface: a successfully
  read line yields its sequence of fields, low-level read failures are the
  `InputItem.readErr` constructor);
- the `std::unordered_map` is modelled as an association list in insertion
  order (its iteration order is unspecified in the source; only the seen
  flags, group contents and key lookups matter to the claims);
- machine integers are `Nat` with explicit `% 2 ^ 64` where overflow matters;
- output written to `std::cout` is modelled as the list of emitted row
  strings (without the trailing newline, which is appended uniformly);
- `string_view_custom` keys compare byte-exact; they are modelled as `String`.
-/

/-- Model of one field of an input line (a byte-exact string view). -/
abbrev FieldStr := String

/-- Model of `File1Line` from hashjoin.cpp: the group of build-side lines
sharing one join key, with the `seen` flag that records whether any probe
line has matched this group. -/
structure KeyGroup where
  lines : List (List FieldStr)
  seen : Bool
deriving DecidableEq

/-- Model of the `std::unordered_map<string_view_custom,File1Line,...> dict`:
an association list from join-key bytes to `KeyGroup`, in insertion order. -/
abbrev Table := List (FieldStr × KeyGroup)

/-- Run configuration, as established by `main` after option processing:
join field indices (1-based), required field counts `req_fields1/2`, output
field lists `outfields1/2`, the `-a`/`-v` policy, `-u`, the output separator,
and the `-s` seed state. -/
structure Config where
  field1 : Nat
  field2 : Nat
  req1 : Nat
  req2 : Nat
  outfields1 : List Nat
  outfields2 : List Nat
  unpaired : Nat
  only_unpaired : Bool
  unique : Bool
  out_sep : Char
  use_seed : Bool
  seed : Nat
deriving DecidableEq

/-- Model of the four counters of `main`: `out_lines`, `matched1`,
`matched2`, `unmatched`. -/
structure Stats where
  out_lines : Nat
  matched1 : Nat
  matched2 : Nat
  unmatched : Nat
deriving DecidableEq

/-- One input line at the tokenizer interface: either the tokenized fields of
a successfully read line, or a low-level read error (`read_line` failing with
an error other than `T_EOF`). -/
inductive InputItem where
  | ok (fields : List FieldStr)
  | readErr
deriving DecidableEq

/-- Errors that abort the run during phase 1 (building the table from
file 1); each carries the 1-based input line number reported by the code. -/
inductive BuildError where
  | parseErr (line : Nat)
  | dupKey (key : FieldStr) (line : Nat)
deriving DecidableEq

/-- Model of `ParseLine` together with its call sites: with a non-empty
output field list the line is read into exactly `req` pre-sized slots (extra
fields are never read; fewer fields is an error); with an empty output field
list the whole line is split and the `size() < field` check applies. -/
def parseFields (fieldIdx req : Nat) (outfields : List Nat) (raw : List FieldStr) : Option (List FieldStr) :=
  if outfields.isEmpty then
    if raw.length < fieldIdx then none else some raw
  else
    if raw.length < req then none else some (raw.take req)

/-- Lookup of a key in the table, modelling `dict.find(key)`. -/
def findG : Table → FieldStr → Option KeyGroup
  | [], _ => none
  | (k2, g) :: rest, k => if k2 = k then some g else findG rest k

/-- Model of `dict[key].lines.push_back(...)`: append the line to the
existing group, or create a fresh unseen group for a new key. -/
def insertLine : Table → FieldStr → List FieldStr → Table
  | [], k, l => [(k, ⟨[l], false⟩)]
  | (k2, g) :: rest, k, l =>
    if k2 = k then (k2, ⟨g.lines ++ [l], g.seen⟩) :: rest
    else (k2, g) :: insertLine rest k l

/-- Model of `match.seen = true` through the lookup iterator. -/
def setSeen : Table → FieldStr → Table
  | [], _ => []
  | (k2, g) :: rest, k =>
    if k2 = k then (k2, ⟨g.lines, true⟩) :: rest
    else (k2, g) :: setSeen rest k

/-- Join key of a parsed line: `fields[field - 1]` (1-based index).  An
out-of-range index cannot occur after a successful parse; it is modelled as
the empty string. -/
def keyAt (fieldIdx : Nat) (fields : List FieldStr) : FieldStr :=
  fields.getD (fieldIdx - 1) ""

/-- Phase 1 loop of `main` (lines 392-412): read every file-1 line, parse it,
check key uniqueness when required, and insert it into the table.  `n` is the
1-based line number used in error messages. -/
def buildGo (cfg : Config) : List InputItem → Nat → Table → Except BuildError Table
  | [], _, t => .ok t
  | .readErr :: _, n, _ => .error (.parseErr n)
  | .ok raw :: rest, n, t =>
    match parseFields cfg.field1 cfg.req1 cfg.outfields1 raw with
    | none => .error (.parseErr n)
    | some fields =>
      let k := keyAt cfg.field1 fields
      if cfg.unique ∧ (findG t k).isSome then .error (.dupKey k n)
      else buildGo cfg rest (n + 1) (insertLine t k fields)

/-- Phase 1: build the table from the whole of file 1. -/
def buildTable (cfg : Config) (input : List InputItem) : Except BuildError Table :=
  buildGo cfg input 1 []

/-- Model of the inner loops of `WriteFields` for an empty `fields` argument:
every field of `line` is written, separated by `out_sep`; the boolean is the
`firstout` flag threaded through the output. -/
def writeAll (line : List FieldStr) (firstout : Bool) (sep : Char) : String × Bool :=
  match line with
  | [] => ("", firstout)
  | s :: rest =>
    let r := writeAll rest false sep
    ((if firstout then s else sep.toString ++ s) ++ r.1, r.2)

/-- Model of the inner loop of `WriteFields` for a non-empty `fields`
argument: the listed fields of `line` are written; when `line` is empty only
separators are written (one fewer when `firstout` is still set).  An
out-of-range field index is undefined behaviour in the source (spec section 9)
and is modelled as an empty string. -/
def writeSel (line : List FieldStr) (fs : List Nat) (firstout : Bool) (sep : Char) : String × Bool :=
  match fs with
  | [] => ("", firstout)
  | f :: rest =>
    let piece :=
      if firstout then (if line.isEmpty then "" else line.getD (f - 1) "")
      else (if line.isEmpty then sep.toString else sep.toString ++ line.getD (f - 1) "")
    let r := writeSel line rest false sep
    (piece ++ r.1, r.2)

/-- Model of `WriteFields` (hashjoin.cpp lines 228-244). -/
def writeFields (line : List FieldStr) (fs : List Nat) (firstout : Bool) (sep : Char) : String × Bool :=
  if fs.isEmpty then writeAll line firstout sep else writeSel line fs firstout sep

/-- Specification-level helper: render a list of field strings as one output
row fragment, threading the `firstout` flag exactly like the emission code. -/
def renderCont (xs : List String) (firstout : Bool) (sep : Char) : String × Bool :=
  match xs with
  | [] => ("", firstout)
  | s :: rest =>
    let r := renderCont rest false sep
    ((if firstout then s else sep.toString ++ s) ++ r.1, r.2)

/-- Specification-level helper: a full output row for a list of fields. -/
def renderRow (xs : List String) (sep : Char) : String :=
  (renderCont xs true sep).1

/-- Specification-level projection: the fields a side contributes to an
output row — all fields when the output field list is empty, otherwise the
listed fields in list order. -/
def projectFields (line : List FieldStr) (fs : List Nat) : List FieldStr :=
  if fs.isEmpty then line else fs.map (fun f => line.getD (f - 1) "")

/-- Output row for a matched pair (hashjoin.cpp lines 456-463): fields of the
file-1 line, then fields of the file-2 line. -/
def pairRow (cfg : Config) (line1 line2 : List FieldStr) : String :=
  (writeFields line1 cfg.outfields1 true cfg.out_sep).1
  ++ (writeFields line2 cfg.outfields2
        (writeFields line1 cfg.outfields1 true cfg.out_sep).2 cfg.out_sep).1

/-- Output row for an unmatched probe line under `-a 2` / `-v 2`
(hashjoin.cpp lines 469-478): empty file-1 fields are written only when
`outfields1` is non-empty; the guard skips the call otherwise. -/
def unpairedProbeRow (cfg : Config) (line2 : List FieldStr) : String :=
  if cfg.outfields1.isEmpty then
    (writeFields line2 cfg.outfields2 true cfg.out_sep).1
  else
    (writeFields [] cfg.outfields1 true cfg.out_sep).1
    ++ (writeFields line2 cfg.outfields2
          (writeFields [] cfg.outfields1 true cfg.out_sep).2 cfg.out_sep).1

/-- Output row for an unmatched build-side line in the trailing sweep
(hashjoin.cpp lines 482-494): empty file-2 fields are written only when
`outfields2` is non-empty. -/
def unpairedBuildRow (cfg : Config) (line1 : List FieldStr) : String :=
  if cfg.outfields2.isEmpty then
    (writeFields line1 cfg.outfields1 true cfg.out_sep).1
  else
    (writeFields line1 cfg.outfields1 true cfg.out_sep).1
    ++ (writeFields [] cfg.outfields2
          (writeFields line1 cfg.outfields1 true cfg.out_sep).2 cfg.out_sep).1

/-- Loop state of phase 2: the table (whose seen flags are being mutated)
and the four counters. -/
structure LState where
  table : Table
  stats : Stats
deriving DecidableEq

/-- Processing of one successfully parsed probe line (hashjoin.cpp lines
450-478): look the key up; on a hit emit one row per group line unless in
suppress mode, add the group size to `matched1` on the group's first hit,
mark the group seen and count the probe line in `matched2`; on a miss with
`-a 2` / `-v 2` emit one synthetic row and count it unmatched. -/
def processLine (cfg : Config) (line2 : List FieldStr) (st : LState) : List String × LState :=
  let k := keyAt cfg.field2 line2
  match findG st.table k with
  | some g =>
    let rows := if cfg.only_unpaired then [] else g.lines.map (fun l1 => pairRow cfg l1 line2)
    let m1 :=
      if cfg.only_unpaired then st.stats.matched1
      else if g.seen then st.stats.matched1 else st.stats.matched1 + g.lines.length
    let ol := if cfg.only_unpaired then st.stats.out_lines else st.stats.out_lines + g.lines.length
    (rows, ⟨setSeen st.table k, ⟨ol, m1, st.stats.matched2 + 1, st.stats.unmatched⟩⟩)
  | none =>
    if cfg.unpaired = 2 then
      ([unpairedProbeRow cfg line2],
       ⟨st.table, ⟨st.stats.out_lines + 1, st.stats.matched1, st.stats.matched2, st.stats.unmatched + 1⟩⟩)
    else ([], st)

/-- Phase 2 main loop (hashjoin.cpp lines 435-479): stream the probe items;
a read failure other than EOF or a parse failure breaks out of the loop
(processing continues after it), EOF ends it normally. -/
def probeLoop (cfg : Config) : List InputItem → LState → List String × LState
  | [], st => ([], st)
  | .readErr :: _, st => ([], st)
  | .ok raw :: rest, st =>
    match parseFields cfg.field2 cfg.req2 cfg.outfields2 raw with
    | none => ([], st)
    | some line2 =>
      let r := processLine cfg line2 st
      let r2 := probeLoop cfg rest r.2
      (r.1 ++ r2.1, r2.2)

/-- Trailing sweep rows (hashjoin.cpp lines 482-494): for every group whose
seen flag is still false, one row per line of the group. -/
def sweepRows (cfg : Config) : Table → List String
  | [] => []
  | (_, g) :: rest =>
    (if g.seen then [] else g.lines.map (unpairedBuildRow cfg)) ++ sweepRows cfg rest

/-- Run statistics written to standard error (hashjoin.cpp lines 499-509):
the two matched counters always, the unmatched counter only when positive and
an unpaired policy is configured, and the total row count. -/
def statsReport (cfg : Config) (s : Stats) : List String :=
  ["Matched lines from file 1: " ++ toString s.matched1,
   "Matched lines from file 2: " ++ toString s.matched2]
  ++ (if 0 < s.unmatched ∧ cfg.unpaired = 1 then ["Unmatched lines from file 1: " ++ toString s.unmatched]
      else if 0 < s.unmatched ∧ cfg.unpaired = 2 then ["Unmatched lines from file 2: " ++ toString s.unmatched]
      else [])
  ++ ["Total lines output: " ++ toString s.out_lines]

/-- Result of a run that got past phase 1: the emitted rows, the final
counters and the statistics report printed to standard error after the output
is flushed. -/
structure RunOut where
  rows : List String
  stats : Stats
  report : List String
deriving DecidableEq

/-- Phase 2 together with its epilogue (hashjoin.cpp lines 430-509): the
probe loop, then the `-a 1` sweep (counting each sweep row in `unmatched` and
`out_lines`), then the statistics report.  The epilogue runs whether the loop
ended at EOF or broke out on an error. -/
def runPhase2 (cfg : Config) (t : Table) (probe : List InputItem) : RunOut :=
  let r := probeLoop cfg probe ⟨t, ⟨0, 0, 0, 0⟩⟩
  let sw := if cfg.unpaired = 1 then sweepRows cfg r.2.table else []
  let st := r.2.stats
  let fs : Stats := ⟨st.out_lines + sw.length, st.matched1, st.matched2, st.unmatched + sw.length⟩
  ⟨r.1 ++ sw, fs, statsReport cfg fs⟩

/-- The whole run after option processing: phase 1, then phase 2 (phase 2 is
never entered when phase 1 fails). -/
def runJoin (cfg : Config) (build probe : List InputItem) : Except BuildError RunOut :=
  match buildTable cfg build with
  | .error e => .error e
  | .ok t => .ok (runPhase2 cfg t probe)

/-- Exit code of the run after option processing: 1 when phase 1 aborts,
otherwise 0 (`main` falls off the end after the report). -/
def runExit (cfg : Config) (build probe : List InputItem) : Nat :=
  match runJoin cfg build probe with
  | .error _ => 1
  | .ok _ => 0

/-- Multiplicative constant `m` of MurmurHash64A. -/
def mmM : Nat := 0xc6a4a7935bd1e995

/-- Modulus of 64-bit arithmetic. -/
def m64 : Nat := 2 ^ 64

/-- Little-endian value of a byte list (byte `i` contributes `b * 2 ^ (8 i)`);
used for both the 8-byte chunk loads and the xor-accumulated tail bytes of
MurmurHash64A (the per-byte xors of disjoint shifted bytes equal this sum). -/
def leVal : List Nat → Nat
  | [] => 0
  | b :: rest => b + 256 * leVal rest

/-- Main loop and finalization of `MurmurHash64A` (hashjoin.cpp lines 68-108):
mix each 8-byte chunk into the state, fold the 0-7 trailing bytes, then
avalanche.  Bytes are the unsigned values of the key's chars (tail bytes at
or above 128 would be sign-extended on platforms with signed `char`; the
claims only evaluate the hash on ASCII keys, where both readings agree). -/
def murmurGo : Nat → List Nat → Nat
  | h, b0 :: b1 :: b2 :: b3 :: b4 :: b5 :: b6 :: b7 :: rest =>
    let k := leVal [b0, b1, b2, b3, b4, b5, b6, b7]
    let k := k * mmM % m64
    let k := k ^^^ (k >>> 47)
    let k := k * mmM % m64
    let h := (h ^^^ k) * mmM % m64
    murmurGo h rest
  | h, tail =>
    let h := if tail.isEmpty then h else (h ^^^ leVal tail) * mmM % m64
    let h := (h ^^^ (h >>> 47)) * mmM % m64
    h ^^^ (h >>> 47)

/-- Model of `MurmurHash64A(key, len, seed)`. -/
def murmurHash64A (bytes : List Nat) (seed : Nat) : Nat :=
  murmurGo (seed ^^^ (bytes.length * mmM % m64)) bytes

/-- Bytes of a key string (ASCII model: one byte per char, the char's code
point, matching UTF-8 for the ASCII keys the claims evaluate). -/
def strBytes (s : String) : List Nat := s.data.map Char.toNat

/-- Default hash seed of `string_view_custom_hash` (hashjoin.cpp line 112). -/
def defaultSeed : Nat := 0xe6573480bcc4fcea

/-- Seed actually carried by the hash functor handed to the table
(hashjoin.cpp lines 371-373): the parsed `seed` when `use_seed` holds,
otherwise the default constant. -/
def effectiveSeed (cfg : Config) : Nat :=
  if cfg.use_seed then cfg.seed else defaultSeed

/-- Hash of one key under a run's configuration, modelling
`string_view_custom_hash::operator()`. -/
def hashKey (cfg : Config) (s : String) : Nat :=
  murmurHash64A (strBytes s) (effectiveSeed cfg)

/-- Value of a decimal digit prefix, modelling the digit loop of `atoi` /
`strtoul`. -/
def digitsVal (cs : List Char) : Nat :=
  cs.foldl (fun a c => a * 10 + (c.toNat - 48)) 0

/-- Value of the longest digit prefix of a char list. -/
def digitsPrefixVal (cs : List Char) : Nat :=
  digitsVal (cs.takeWhile Char.isDigit)

/-- Model of C `atoi`: skip blanks, read an optional sign and the longest
digit prefix; 0 when there are no digits.  (Overflow of the C `int` is
undefined behaviour and not modelled; the claims use small values.) -/
def atoi (s : String) : Int :=
  match s.data.dropWhile (fun c => c == ' ' || c == '\t' || c == '\n' || c == '\r') with
  | '-' :: rest => -(digitsPrefixVal rest : Int)
  | '+' :: rest => (digitsPrefixVal rest : Int)
  | cs => (digitsPrefixVal cs : Int)

/-- Model of C `strtoul(s, 0, 10)` as used for the `-s` seed: the digit
prefix value reduced to 64 bits (a leading minus wraps modulo `2 ^ 64`). -/
def strtoul10 (s : String) : Nat :=
  match s.data.dropWhile (fun c => c == ' ' || c == '\t' || c == '\n' || c == '\r') with
  | '-' :: rest => (m64 - digitsPrefixVal rest % m64) % m64
  | '+' :: rest => digitsPrefixVal rest % m64
  | cs => digitsPrefixVal cs % m64

/-- Split a char list on commas (model of the `line_parser` with delimiter
`,` used for `-o1` / `-o2` arguments). -/
def splitComma : List Char → List (List Char)
  | [] => [[]]
  | c :: rest =>
    let r := splitComma rest
    if c = ',' then [] :: r else (c :: r.headD []) :: r.tail

/-- Integer value of one comma-separated token: an optional sign followed by
one or more digits; anything else is a tokenizer failure (`lp.read(x)` fails
before the end of the argument, so `get_last_error() != T_EOL`). -/
def parseIntToken : List Char → Option Int
  | [] => none
  | '-' :: rest =>
    if rest ≠ [] ∧ rest.all Char.isDigit then some (-(digitsVal rest : Int)) else none
  | cs => if cs.all Char.isDigit then some ((digitsVal cs : Int)) else none

/-- Model of the `-o1` / `-o2` list parser loop: every comma-separated token
must be an integer, collected in order. -/
def readIntList (s : String) : Option (List Int) :=
  (splitComma s.data).mapM parseIntToken

/-- Largest element of an integer list, starting from the 0 that the `max`
accumulator of the option parser is initialized with. -/
def intMax0 : List Int → Int
  | [] => 0
  | x :: rest => max x (intMax0 rest)

/-- Mutable option state of `main` (hashjoin.cpp lines 247-267).  `seed` and
`use_seed` are declared without initializers in the source; their
indeterminate initial values are the `junkSeed` / `junkUseSeed` parameters of
`initOpt`. -/
structure OptState where
  field1 : Int
  field2 : Int
  req1 : Int
  req2 : Int
  outfields1 : List Int
  outfields2 : List Int
  delim : Char
  commentCh : Char
  unpaired : Int
  only_unpaired : Bool
  header : Bool
  unique : Bool
  seed : Nat
  use_seed : Bool
deriving DecidableEq

/-- Initial option state: the C++ initializers of lines 250-265, with the
uninitialized `seed` / `use_seed` represented by arbitrary junk values. -/
def initOpt (junkUseSeed : Bool) (junkSeed : Nat) : OptState :=
  ⟨1, 1, 1, 1, [], [], Char.ofNat 0, Char.ofNat 0, 0, false, false, true, junkSeed, junkUseSeed⟩

/-- Outcome of handling one option argument: continue (having consumed the
following argument or not), fail with a configuration error, or print usage
and exit 0. -/
inductive OptOut where
  | cont (st : OptState) (consumed : Bool)
  | err
  | help
deriving DecidableEq

/-- Model of one iteration of the option-processing `switch` (hashjoin.cpp
lines 271-352).  `c` is `args[i][1]`, `cs` the remaining chars of the flag,
`next` the following argument (`args[i+1]`; reading it past the end of the
argument vector is undefined behaviour in the source and modelled as the
empty string).  Note that `case 's'` does not advance `i` in the source, so
the seed value is not consumed and is re-examined as the next argument. -/
def optStep (st : OptState) (c : Char) (cs : List Char) (next : String) : OptOut :=
  if c = '1' then .cont { st with field1 := atoi next } true
  else if c = '2' then .cont { st with field2 := atoi next } true
  else if c = 'j' then .cont { st with field1 := atoi next, field2 := atoi next } true
  else if c = 't' then .cont { st with delim := next.data.headD (Char.ofNat 0) } true
  else if c = 'C' then .cont { st with commentCh := next.data.headD (Char.ofNat 0) } true
  else if c = 'a' then
    (if atoi next = 1 ∨ atoi next = 2 then .cont { st with unpaired := atoi next } true else .err)
  else if c = 'v' then
    (if atoi next = 1 ∨ atoi next = 2 then
      .cont { st with unpaired := atoi next, only_unpaired := true } true
     else .err)
  else if c = 'o' then
    (let c2 := cs.headD (Char.ofNat 0)
     if c2 = '1' ∨ c2 = '2' then
       (let first := next.data.headD (Char.ofNat 0)
        let xs? : Option (List Int) :=
          if first = Char.ofNat 0 ∨ first = '-' then some []
          else
            match readIntList next with
            | none => none
            | some xs => if xs.isEmpty ∨ xs.any (fun x => x < 1) then none else some xs
        match xs? with
        | none => .err
        | some xs =>
          if c2 = '1' then .cont { st with outfields1 := xs, req1 := max st.req1 (intMax0 xs) } true
          else .cont { st with outfields2 := xs, req2 := max st.req2 (intMax0 xs) } true)
     else .err)
  else if c = 'H' then .cont { st with header := true } false
  else if c = 'u' then .cont { st with unique := false } false
  else if c = 's' then .cont { st with seed := strtoul10 next, use_seed := true } false
  else if c = 'h' then .help
  else .err

/-- Result of option and filename processing. -/
inductive ParseResult where
  | err
  | help
  | ok (cfg : Config) (file1 file2 : String) (header : Bool)
deriving DecidableEq

/-- Final configuration from the option state (hashjoin.cpp lines 361-379):
the required field counts are raised to the join field indices and the output
separator defaults to a tab when no `-t` delimiter was given. -/
def mkConfig (st : OptState) : Config :=
  ⟨st.field1.toNat, st.field2.toNat, (max st.req1 st.field1).toNat, (max st.req2 st.field2).toNat,
   st.outfields1.map Int.toNat, st.outfields2.map Int.toNat, st.unpaired.toNat,
   st.only_unpaired, st.unique,
   (if st.delim = Char.ofNat 0 then '\t' else st.delim), st.use_seed, st.seed⟩

/-- Filename and validity processing after the option loop (hashjoin.cpp
lines 355-364): two filenames are required (further arguments are ignored),
they must differ, and both join field indices must be at least 1. -/
def finishArgs (st : OptState) : List String → ParseResult
  | f1 :: f2 :: _ =>
    if f1 = f2 then .err
    else if st.field1 < 1 ∨ st.field2 < 1 then .err
    else .ok (mkConfig st) f1 f2 st.header
  | _ => .err

/-- Option-processing loop (hashjoin.cpp lines 270-353): arguments starting
with `-` and at least two chars long are options; the first other argument
starts the filename list.  Running out of arguments mid-options leads to the
missing-filenames error. -/
def parseOpts : OptState → List String → ParseResult
  | _, [] => .err
  | st, a :: rest =>
    match a.data with
    | '-' :: c :: cs =>
      (match optStep st c cs (rest.headD "") with
       | .err => .err
       | .help => .help
       | .cont st2 false => parseOpts st2 rest
       | .cont st2 true =>
         match rest with
         | [] => .err
         | _ :: r2 => parseOpts st2 r2)
    | _ => finishArgs st (a :: rest)

/-- Command-line processing of `main`; `argv` is the argument list after the
program name. -/
def parseArgs (junkUseSeed : Bool) (junkSeed : Nat) (argv : List String) : ParseResult :=
  parseOpts (initOpt junkUseSeed junkSeed) argv

/-- Header-line consumption in `-H` mode (hashjoin.cpp lines 382-389 and
416-424): the first line of the stream is read and `req` fields of it; any
failure exits with code 1. -/
def headerConsume (req : Nat) : List InputItem → Option (List InputItem)
  | [] => none
  | .readErr :: _ => none
  | .ok raw :: rest => if raw.length < req then none else some rest

/-- Exit code of a whole invocation: argument processing, then the optional
file-1 header, then phase 1, then the optional file-2 header, then phase 2
(whose own outcome never changes the exit code: `main` ends by falling off
the end after the statistics report). -/
def exitCodeFull (junkUseSeed : Bool) (junkSeed : Nat) (argv : List String)
    (input1 input2 : List InputItem) : Nat :=
  match parseArgs junkUseSeed junkSeed argv with
  | .err => 1
  | .help => 0
  | .ok cfg _ _ hdr =>
    match (if hdr then headerConsume cfg.req1 input1 else some input1) with
    | none => 1
    | some b =>
      match buildTable cfg b with
      | .error _ => 1
      | .ok t =>
        match (if hdr then headerConsume cfg.req2 input2 else some input2) with
        | none => 1
        | some p =>
          let _ := runPhase2 cfg t p
          0

lemma str_data_append (s t : String) : (s ++ t).data = s.data ++ t.data := by
  cases s
  cases t
  rfl

lemma str_nil_append (s : String) : "" ++ s = s := by
  cases s with
  | mk l => exact congrArg String.mk (List.nil_append l)

lemma str_append_nil (s : String) : s ++ "" = s := by
  cases s with
  | mk l => exact congrArg String.mk (List.append_nil l)

lemma str_append_assoc (a b c : String) : a ++ b ++ c = a ++ (b ++ c) := by
  cases a
  cases b
  cases c
  exact congrArg String.mk (List.append_assoc _ _ _)

@[simp] lemma renderCont_nil (fo : Bool) (sep : Char) : renderCont [] fo sep = ("", fo) := rfl

@[simp] lemma renderCont_cons (s : String) (xs : List String) (fo : Bool) (sep : Char) :
    renderCont (s :: xs) fo sep =
      ((if fo then s else sep.toString ++ s) ++ (renderCont xs false sep).1,
       (renderCont xs false sep).2) := rfl

lemma renderCont_snd (xs : List String) (fo : Bool) (sep : Char) :
    (renderCont xs fo sep).2 = (xs.isEmpty && fo) := by
  induction xs generalizing fo with
  | nil => simp
  | cons s rest ih => simp [renderCont_cons, ih]

lemma renderCont_append (xs ys : List String) (fo : Bool) (sep : Char) :
    renderCont (xs ++ ys) fo sep =
      ((renderCont xs fo sep).1 ++ (renderCont ys ((renderCont xs fo sep).2) sep).1,
       (renderCont ys ((renderCont xs fo sep).2) sep).2) := by
  induction xs generalizing fo with
  | nil => simp [str_nil_append]
  | cons s rest ih =>
    simp only [List.cons_append, renderCont_cons, ih, str_append_assoc]

lemma writeAll_eq_renderCont (line : List FieldStr) (fo : Bool) (sep : Char) :
    writeAll line fo sep = renderCont line fo sep := by
  induction line generalizing fo with
  | nil => rfl
  | cons s rest ih => simp [writeAll, renderCont_cons, ih]

lemma writeSel_eq_renderCont (line : List FieldStr) (fs : List Nat) (fo : Bool) (sep : Char)
    (h : line ≠ []) :
    writeSel line fs fo sep = renderCont (fs.map (fun f => line.getD (f - 1) "")) fo sep := by
  induction fs generalizing fo with
  | nil => rfl
  | cons f rest ih =>
    have he : line.isEmpty = false := by
      cases line with
      | nil => exact absurd rfl h
      | cons a l => rfl
    simp [writeSel, renderCont_cons, ih, he]

lemma writeSel_nil_eq_renderCont (fs : List Nat) (fo : Bool) (sep : Char) :
    writeSel [] fs fo sep = renderCont (List.replicate fs.length "") fo sep := by
  induction fs generalizing fo with
  | nil => rfl
  | cons f rest ih =>
    simp [writeSel, List.replicate_succ, renderCont_cons, ih, str_append_nil]

lemma projectFields_ne_nil (line : List FieldStr) (fs : List Nat) (h : line ≠ []) :
    projectFields line fs ≠ [] := by
  unfold projectFields
  split
  · exact h
  · rename_i hfs
    intro hmap
    rcases List.map_eq_nil_iff.mp hmap with rfl
    simp at hfs

lemma writeFields_fst (line : List FieldStr) (fs : List Nat) (fo : Bool) (sep : Char)
    (h : line ≠ []) :
    writeFields line fs fo sep = renderCont (projectFields line fs) fo sep := by
  unfold writeFields projectFields
  split
  · exact writeAll_eq_renderCont line fo sep
  · exact writeSel_eq_renderCont line fs fo sep h

lemma pairRow_eq_renderRow (cfg : Config) (line1 line2 : List FieldStr)
    (h1 : line1 ≠ []) (h2 : line2 ≠ []) :
    pairRow cfg line1 line2 =
      renderRow (projectFields line1 cfg.outfields1 ++ projectFields line2 cfg.outfields2)
        cfg.out_sep := by
  have hp1 : projectFields line1 cfg.outfields1 ≠ [] := projectFields_ne_nil _ _ h1
  have he1 : (projectFields line1 cfg.outfields1).isEmpty = false := by
    cases hx : projectFields line1 cfg.outfields1 with
    | nil => exact absurd hx hp1
    | cons a l => rfl
  unfold pairRow renderRow
  rw [writeFields_fst _ _ _ _ h1, writeFields_fst _ _ _ _ h2, renderCont_append]

lemma unpairedProbeRow_eq_renderRow (cfg : Config) (line2 : List FieldStr) (h2 : line2 ≠ []) :
    unpairedProbeRow cfg line2 =
      renderRow ((if cfg.outfields1.isEmpty then []
                  else List.replicate cfg.outfields1.length "")
                 ++ projectFields line2 cfg.outfields2) cfg.out_sep := by
  unfold unpairedProbeRow renderRow
  split
  · rename_i hfs
    rw [writeFields_fst _ _ _ _ h2]
    simp [str_nil_append]
  · rename_i hfs
    have hwf : writeFields [] cfg.outfields1 true cfg.out_sep =
        renderCont (List.replicate cfg.outfields1.length "") true cfg.out_sep := by
      unfold writeFields
      rw [if_neg hfs]
      exact writeSel_nil_eq_renderCont _ _ _
    rw [writeFields_fst _ _ _ _ h2, hwf, renderCont_append]

lemma unpairedBuildRow_eq_renderRow (cfg : Config) (line1 : List FieldStr) (h1 : line1 ≠ []) :
    unpairedBuildRow cfg line1 =
      renderRow (projectFields line1 cfg.outfields1
                 ++ (if cfg.outfields2.isEmpty then []
                     else List.replicate cfg.outfields2.length "")) cfg.out_sep := by
  have hp1 : projectFields line1 cfg.outfields1 ≠ [] := projectFields_ne_nil _ _ h1
  have he1 : (projectFields line1 cfg.outfields1).isEmpty = false := by
    cases hx : projectFields line1 cfg.outfields1 with
    | nil => exact absurd hx hp1
    | cons a l => rfl
  unfold unpairedBuildRow renderRow
  split
  · rename_i hfs
    rw [writeFields_fst _ _ _ _ h1]
    simp [str_append_nil]
  · rename_i hfs
    have hwf : ∀ fo : Bool, writeFields [] cfg.outfields2 fo cfg.out_sep =
        renderCont (List.replicate cfg.outfields2.length "") fo cfg.out_sep := by
      intro fo
      unfold writeFields
      rw [if_neg hfs]
      exact writeSel_nil_eq_renderCont _ _ _
    rw [writeFields_fst _ _ _ _ h1, hwf, renderCont_append]

/-- Keys of the table, in insertion order. -/
def keysOf (t : Table) : List FieldStr := t.map Prod.fst

/-- Specification-level effect of the probe loop on the table: every group
whose key occurs in `ks` has its seen flag raised; nothing else changes. -/
def markAll (t : Table) (ks : List FieldStr) : Table :=
  t.map (fun p => (p.1, ⟨p.2.lines, p.2.seen || decide (p.1 ∈ ks)⟩))

/-- Total number of build-side lines in groups whose seen flag is set. -/
def seenSum : Table → Nat
  | [] => 0
  | (_, g) :: rest => (if g.seen then g.lines.length else 0) + seenSum rest

/-- Total number of build-side lines in groups whose key occurs in `ks`. -/
def hitSum : Table → List FieldStr → Nat
  | [], _ => 0
  | (k, g) :: rest, ks => (if k ∈ ks then g.lines.length else 0) + hitSum rest ks

/-- Total number of build-side lines in groups whose seen flag is not set. -/
def unseenSum : Table → Nat
  | [] => 0
  | (_, g) :: rest => (if g.seen then 0 else g.lines.length) + unseenSum rest

/-- Join keys of the probe lines the loop actually processes: parsing stops
at the first read or parse failure, exactly like the loop does. -/
def parsedKeys (cfg : Config) : List InputItem → List FieldStr
  | [] => []
  | .readErr :: _ => []
  | .ok raw :: rest =>
    match parseFields cfg.field2 cfg.req2 cfg.outfields2 raw with
    | none => []
    | some line2 => keyAt cfg.field2 line2 :: parsedKeys cfg rest

/-- Join keys of a list of build-side lines, provided every one of them reads
and parses successfully. -/
def preKeys (cfg : Config) : List InputItem → Option (List FieldStr)
  | [] => some []
  | .readErr :: _ => none
  | .ok raw :: rest =>
    match parseFields cfg.field1 cfg.req1 cfg.outfields1 raw with
    | none => none
    | some fields =>
      match preKeys cfg rest with
      | none => none
      | some ks => some (keyAt cfg.field1 fields :: ks)

/-- Whether a probe item makes the probe loop break out early (a read error,
or a line that fails to parse under the configuration). -/
def itemStopsB (cfg : Config) : InputItem → Bool
  | .readErr => true
  | .ok raw => (parseFields cfg.field2 cfg.req2 cfg.outfields2 raw).isNone

/-- Whether every item of a probe stream is processed without stopping. -/
def wfProbeB (cfg : Config) (items : List InputItem) : Bool :=
  items.all (fun it => !(itemStopsB cfg it))

lemma keysOf_cons (k : FieldStr) (g : KeyGroup) (rest : Table) :
    keysOf ((k, g) :: rest) = k :: keysOf rest := rfl

lemma markAll_cons (k : FieldStr) (g : KeyGroup) (rest : Table) (ks : List FieldStr) :
    markAll ((k, g) :: rest) ks =
      (k, ⟨g.lines, g.seen || decide (k ∈ ks)⟩) :: markAll rest ks := rfl

lemma seenSum_cons (k : FieldStr) (g : KeyGroup) (rest : Table) :
    seenSum ((k, g) :: rest) = (if g.seen then g.lines.length else 0) + seenSum rest := rfl

lemma setSeen_cons_eq (k : FieldStr) (g : KeyGroup) (rest : Table) :
    setSeen ((k, g) :: rest) k = (k, ⟨g.lines, true⟩) :: rest := by
  simp [setSeen]

lemma setSeen_cons_ne (k2 k : FieldStr) (g : KeyGroup) (rest : Table) (h : ¬k2 = k) :
    setSeen ((k2, g) :: rest) k = (k2, g) :: setSeen rest k := by
  simp [setSeen, h]

lemma findG_isSome_iff (t : Table) (k : FieldStr) :
    (findG t k).isSome = true ↔ k ∈ keysOf t := by
  induction t with
  | nil => simp [findG, keysOf]
  | cons p rest ih =>
    obtain ⟨k2, g⟩ := p
    by_cases h : k2 = k
    · subst h
      simp [findG, keysOf_cons]
    · have h2 : ¬k = k2 := fun hx => h hx.symm
      simp [findG, keysOf_cons, h, h2, ih]

lemma keysOf_setSeen (t : Table) (k : FieldStr) : keysOf (setSeen t k) = keysOf t := by
  induction t with
  | nil => rfl
  | cons p rest ih =>
    obtain ⟨k2, g⟩ := p
    by_cases h : k2 = k
    · subst h
      rw [setSeen_cons_eq, keysOf_cons, keysOf_cons]
    · rw [setSeen_cons_ne _ _ _ _ h, keysOf_cons, keysOf_cons, ih]

lemma keysOf_markAll (t : Table) (ks : List FieldStr) : keysOf (markAll t ks) = keysOf t := by
  simp [keysOf, markAll]

lemma markAll_nil (t : Table) : markAll t [] = t := by
  induction t with
  | nil => rfl
  | cons p rest ih =>
    obtain ⟨k2, g⟩ := p
    rw [markAll_cons, ih]
    simp

lemma markAll_not_mem_cons (t : Table) (k : FieldStr) (ks : List FieldStr)
    (h : k ∉ keysOf t) : markAll t (k :: ks) = markAll t ks := by
  induction t with
  | nil => rfl
  | cons p rest ih =>
    obtain ⟨k2, g⟩ := p
    rw [keysOf_cons] at h
    have hk2 : ¬k2 = k := fun hx => h (by simp [hx])
    have hrest : k ∉ keysOf rest := fun hx => h (List.mem_cons_of_mem _ hx)
    rw [markAll_cons, markAll_cons, ih hrest]
    simp [List.mem_cons, hk2]

lemma markAll_setSeen (t : Table) (k : FieldStr) (ks : List FieldStr)
    (hnd : (keysOf t).Nodup) : markAll (setSeen t k) ks = markAll t (k :: ks) := by
  induction t with
  | nil => rfl
  | cons p rest ih =>
    obtain ⟨k2, g⟩ := p
    rw [keysOf_cons, List.nodup_cons] at hnd
    by_cases h : k2 = k
    · subst h
      rw [setSeen_cons_eq, markAll_cons, markAll_cons,
        markAll_not_mem_cons rest k2 ks hnd.1]
      simp
    · rw [setSeen_cons_ne _ _ _ _ h, markAll_cons, markAll_cons, ih hnd.2]
      simp [List.mem_cons, h]

lemma setSeen_not_mem (t : Table) (k : FieldStr) (h : k ∉ keysOf t) : setSeen t k = t := by
  induction t with
  | nil => rfl
  | cons p rest ih =>
    obtain ⟨k2, g⟩ := p
    rw [keysOf_cons] at h
    have hk2 : ¬k2 = k := fun hx => h (by simp [hx])
    have hrest : k ∉ keysOf rest := fun hx => h (List.mem_cons_of_mem _ hx)
    rw [setSeen_cons_ne _ _ _ _ hk2, ih hrest]

lemma seenSum_setSeen (t : Table) (k : FieldStr) (g : KeyGroup) (h : findG t k = some g) :
    seenSum (setSeen t k) = seenSum t + (if g.seen then 0 else g.lines.length) := by
  induction t with
  | nil => simp [findG] at h
  | cons p rest ih =>
    obtain ⟨k2, g2⟩ := p
    by_cases hk : k2 = k
    · subst hk
      have hg : g2 = g := by
        simpa [findG] using h
      subst hg
      rw [setSeen_cons_eq, seenSum_cons, seenSum_cons]
      cases hx : g2.seen <;> simp [hx] <;> omega
    · simp only [findG, if_neg hk] at h
      rw [setSeen_cons_ne _ _ _ _ hk, seenSum_cons, seenSum_cons, ih h]
      omega

lemma processLine_table (cfg : Config) (line2 : List FieldStr) (st : LState) :
    (processLine cfg line2 st).2.table = setSeen st.table (keyAt cfg.field2 line2) := by
  cases hg : findG st.table (keyAt cfg.field2 line2) with
  | some g => simp [processLine, hg]
  | none =>
    have hnm : keyAt cfg.field2 line2 ∉ keysOf st.table := by
      intro hx
      have := (findG_isSome_iff st.table (keyAt cfg.field2 line2)).mpr hx
      rw [hg] at this
      simp at this
    rw [setSeen_not_mem _ _ hnm]
    by_cases hu : cfg.unpaired = 2 <;> simp [processLine, hg, hu]

lemma probeLoop_table (cfg : Config) (items : List InputItem) :
    ∀ st : LState, (keysOf st.table).Nodup →
      ((probeLoop cfg items st).2).table = markAll st.table (parsedKeys cfg items) := by
  induction items with
  | nil =>
    intro st _
    simp [probeLoop, parsedKeys, markAll_nil]
  | cons it rest ih =>
    intro st hnd
    cases it with
    | readErr => simp [probeLoop, parsedKeys, markAll_nil]
    | ok raw =>
      simp only [probeLoop, parsedKeys]
      cases hp : parseFields cfg.field2 cfg.req2 cfg.outfields2 raw with
      | none => simp [markAll_nil]
      | some line2 =>
        simp only []
        have hnd2 : (keysOf (processLine cfg line2 st).2.table).Nodup := by
          rw [processLine_table, keysOf_setSeen]
          exact hnd
        rw [ih _ hnd2, processLine_table, markAll_setSeen _ _ _ hnd]

lemma probeLoop_matched2 (cfg : Config) (items : List InputItem) :
    ∀ st : LState,
      ((probeLoop cfg items st).2).stats.matched2 =
        st.stats.matched2 +
          (parsedKeys cfg items).countP (fun k => decide (k ∈ keysOf st.table)) := by
  induction items with
  | nil =>
    intro st
    simp [probeLoop, parsedKeys]
  | cons it rest ih =>
    intro st
    cases it with
    | readErr => simp [probeLoop, parsedKeys]
    | ok raw =>
      simp only [probeLoop, parsedKeys]
      cases hp : parseFields cfg.field2 cfg.req2 cfg.outfields2 raw with
      | none => simp
      | some line2 =>
        simp only [List.countP_cons]
        rw [ih]
        have hkeys : keysOf (processLine cfg line2 st).2.table = keysOf st.table := by
          rw [processLine_table, keysOf_setSeen]
        rw [hkeys]
        cases hg : findG st.table (keyAt cfg.field2 line2) with
        | some g =>
          have hmem : keyAt cfg.field2 line2 ∈ keysOf st.table := by
            rw [← findG_isSome_iff, hg]
            rfl
          have hm2 : (processLine cfg line2 st).2.stats.matched2 = st.stats.matched2 + 1 := by
            simp [processLine, hg]
          rw [hm2]
          simp [hmem]
          omega
        | none =>
          have hnm : keyAt cfg.field2 line2 ∉ keysOf st.table := by
            intro hx
            have := (findG_isSome_iff st.table (keyAt cfg.field2 line2)).mpr hx
            rw [hg] at this
            simp at this
          have hm2 : (processLine cfg line2 st).2.stats.matched2 = st.stats.matched2 := by
            by_cases hu : cfg.unpaired = 2 <;> simp [processLine, hg, hu]
          rw [hm2]
          simp [hnm]

lemma probeLoop_matched1_suppress (cfg : Config) (items : List InputItem)
    (hsup : cfg.only_unpaired = true) :
    ∀ st : LState, ((probeLoop cfg items st).2).stats.matched1 = st.stats.matched1 := by
  induction items with
  | nil => intro st; rfl
  | cons it rest ih =>
    intro st
    cases it with
    | readErr => rfl
    | ok raw =>
      simp only [probeLoop]
      cases hp : parseFields cfg.field2 cfg.req2 cfg.outfields2 raw with
      | none => simp
      | some line2 =>
        simp only []
        rw [ih]
        cases hg : findG st.table (keyAt cfg.field2 line2) with
        | some g => simp [processLine, hg, hsup]
        | none => by_cases hu : cfg.unpaired = 2 <;> simp [processLine, hg, hu]

lemma probeLoop_matched1_main (cfg : Config) (items : List InputItem)
    (hsup : cfg.only_unpaired = false) :
    ∀ st : LState, st.stats.matched1 = seenSum st.table →
      ((probeLoop cfg items st).2).stats.matched1 = seenSum ((probeLoop cfg items st).2).table := by
  induction items with
  | nil => intro st h; exact h
  | cons it rest ih =>
    intro st h
    cases it with
    | readErr => exact h
    | ok raw =>
      simp only [probeLoop]
      cases hp : parseFields cfg.field2 cfg.req2 cfg.outfields2 raw with
      | none => exact h
      | some line2 =>
        simp only []
        apply ih
        cases hg : findG st.table (keyAt cfg.field2 line2) with
        | some g =>
          have ht : (processLine cfg line2 st).2.table =
              setSeen st.table (keyAt cfg.field2 line2) := processLine_table cfg line2 st
          have hm : (processLine cfg line2 st).2.stats.matched1 =
              (if g.seen then st.stats.matched1 else st.stats.matched1 + g.lines.length) := by
            simp [processLine, hg, hsup]
          rw [ht, hm, seenSum_setSeen st.table _ g hg, h]
          cases hx : g.seen <;> simp [hx]
        | none =>
          have ht : (processLine cfg line2 st).2.table =
              setSeen st.table (keyAt cfg.field2 line2) := processLine_table cfg line2 st
          have hnm : keyAt cfg.field2 line2 ∉ keysOf st.table := by
            intro hx
            have := (findG_isSome_iff st.table (keyAt cfg.field2 line2)).mpr hx
            rw [hg] at this
            simp at this
          have hm : (processLine cfg line2 st).2.stats.matched1 = st.stats.matched1 := by
            by_cases hu : cfg.unpaired = 2 <;> simp [processLine, hg, hu]
          rw [ht, hm, setSeen_not_mem _ _ hnm, h]

lemma seenSum_markAll_unseen (t : Table) (ks : List FieldStr)
    (h : ∀ p ∈ t, p.2.seen = false) : seenSum (markAll t ks) = hitSum t ks := by
  induction t with
  | nil => rfl
  | cons p rest ih =>
    obtain ⟨k2, g⟩ := p
    have hg : g.seen = false := h (k2, g) (List.mem_cons_self _ _)
    have hrest : ∀ p ∈ rest, p.2.seen = false := fun p hp => h p (List.mem_cons_of_mem _ hp)
    rw [markAll_cons, seenSum_cons, hitSum, ih hrest, hg]
    by_cases hm : k2 ∈ ks <;> simp [hm]

lemma keysOf_insertLine (t : Table) (k : FieldStr) (l : List FieldStr) :
    keysOf (insertLine t k l) =
      if k ∈ keysOf t then keysOf t else keysOf t ++ [k] := by
  induction t with
  | nil => simp [insertLine, keysOf]
  | cons p rest ih =>
    obtain ⟨k2, g⟩ := p
    by_cases h : k2 = k
    · subst h
      simp [insertLine, keysOf_cons]
    · have h2 : ¬k = k2 := fun hx => h hx.symm
      simp only [insertLine, if_neg h, keysOf_cons, ih, List.mem_cons]
      by_cases hm : k ∈ keysOf rest <;> simp [hm, h2]

lemma insertLine_unseen (t : Table) (k : FieldStr) (l : List FieldStr)
    (h : ∀ p ∈ t, p.2.seen = false) : ∀ p ∈ insertLine t k l, p.2.seen = false := by
  induction t with
  | nil =>
    intro p hp
    simp [insertLine] at hp
    subst hp
    rfl
  | cons q rest ih =>
    obtain ⟨k2, g⟩ := q
    have hg : g.seen = false := h (k2, g) (List.mem_cons_self _ _)
    have hrest : ∀ p ∈ rest, p.2.seen = false := fun p hp => h p (List.mem_cons_of_mem _ hp)
    intro p hp
    by_cases hk : k2 = k
    · subst hk
      simp [insertLine] at hp
      rcases hp with hp | hp
      · subst hp
        exact hg
      · exact hrest p hp
    · simp [insertLine, hk] at hp
      rcases hp with hp | hp
      · subst hp
        exact hg
      · exact ih hrest p hp

lemma buildGo_inv (cfg : Config) :
    ∀ (items : List InputItem) (n : Nat) (t T : Table),
      (∀ p ∈ t, p.2.seen = false) → (keysOf t).Nodup →
      buildGo cfg items n t = .ok T →
      (∀ p ∈ T, p.2.seen = false) ∧ (keysOf T).Nodup := by
  intro items
  induction items with
  | nil =>
    intro n t T hu hnd h
    simp [buildGo] at h
    subst h
    exact ⟨hu, hnd⟩
  | cons it rest ih =>
    intro n t T hu hnd h
    cases it with
    | readErr => simp [buildGo] at h
    | ok raw =>
      simp only [buildGo] at h
      cases hp : parseFields cfg.field1 cfg.req1 cfg.outfields1 raw with
      | none => rw [hp] at h; simp at h
      | some fields =>
        rw [hp] at h
        simp only [] at h
        by_cases hd : cfg.unique ∧ (findG t (keyAt cfg.field1 fields)).isSome
        · rw [if_pos hd] at h
          simp at h
        · rw [if_neg hd] at h
          refine ih (n + 1) _ T (insertLine_unseen _ _ _ hu) ?_ h
          rw [keysOf_insertLine]
          by_cases hm : keyAt cfg.field1 fields ∈ keysOf t
          · rw [if_pos hm]
            exact hnd
          · rw [if_neg hm]
            simp [List.nodup_append, hnd]
            exact hm

lemma buildTable_inv (cfg : Config) (input : List InputItem) (T : Table)
    (h : buildTable cfg input = .ok T) :
    (∀ p ∈ T, p.2.seen = false) ∧ (keysOf T).Nodup :=
  buildGo_inv cfg input 1 [] T (by intro p hp; simp at hp) (by simp [keysOf]) h

lemma buildGo_skip (cfg : Config) (hu : cfg.unique = true) :
    ∀ (pre : List InputItem) (more : List InputItem) (n : Nat) (t : Table) (ks : List FieldStr),
      preKeys cfg pre = some ks → (keysOf t ++ ks).Nodup →
      ∃ t2, buildGo cfg (pre ++ more) n t = buildGo cfg more (n + pre.length) t2 ∧
        keysOf t2 = keysOf t ++ ks := by
  intro pre
  induction pre with
  | nil =>
    intro more n t ks hks hnd
    simp [preKeys] at hks
    subst hks
    exact ⟨t, by simp, by simp⟩
  | cons it pre2 ih =>
    intro more n t ks hks hnd
    cases it with
    | readErr => simp [preKeys] at hks
    | ok raw =>
      simp only [preKeys] at hks
      cases hp : parseFields cfg.field1 cfg.req1 cfg.outfields1 raw with
      | none => rw [hp] at hks; simp at hks
      | some fields =>
        rw [hp] at hks
        cases hks2 : preKeys cfg pre2 with
        | none => rw [hks2] at hks; simp at hks
        | some ks2 =>
          rw [hks2] at hks
          simp only [Option.some.injEq] at hks
          subst hks
          have hnm : keyAt cfg.field1 fields ∉ keysOf t := by
            rw [List.nodup_append] at hnd
            intro hx
            exact hnd.2.2 hx (List.mem_cons_self _ _)
          have hfind : ¬(findG t (keyAt cfg.field1 fields)).isSome = true := by
            rw [findG_isSome_iff]
            exact hnm
          have hkeys : keysOf (insertLine t (keyAt cfg.field1 fields) fields) =
              keysOf t ++ [keyAt cfg.field1 fields] := by
            rw [keysOf_insertLine, if_neg hnm]
          have hnd2 : (keysOf (insertLine t (keyAt cfg.field1 fields) fields) ++ ks2).Nodup := by
            rw [hkeys, List.append_assoc]
            simpa using hnd
          obtain ⟨t2, hh1, hh2⟩ :=
            ih more (n + 1) (insertLine t (keyAt cfg.field1 fields) fields) ks2 hks2 hnd2
          refine ⟨t2, ?_, ?_⟩
          · rw [List.cons_append]
            simp only [buildGo, hp]
            rw [if_neg (fun hx => hfind hx.2), hh1]
            simp only [List.length_cons]
            rw [show n + 1 + pre2.length = n + (pre2.length + 1) from by omega]
          · rw [hh2, hkeys, List.append_assoc]
            simp

lemma sweepRows_cons (cfg : Config) (k : FieldStr) (g : KeyGroup) (rest : Table) :
    sweepRows cfg ((k, g) :: rest) =
      (if g.seen then [] else g.lines.map (unpairedBuildRow cfg)) ++ sweepRows cfg rest := rfl

lemma sweepRows_length (cfg : Config) (t : Table) :
    (sweepRows cfg t).length = unseenSum t := by
  induction t with
  | nil => rfl
  | cons p rest ih =>
    obtain ⟨k, g⟩ := p
    rw [sweepRows_cons, List.length_append, ih]
    cases hx : g.seen <;> simp [unseenSum, hx]

lemma sweepRows_mem (cfg : Config) (t : Table) (r : String) (hr : r ∈ sweepRows cfg t) :
    ∃ p, p ∈ t ∧ p.2.seen = false ∧ ∃ l, l ∈ p.2.lines ∧ r = unpairedBuildRow cfg l := by
  induction t with
  | nil => simp [sweepRows] at hr
  | cons p rest ih =>
    obtain ⟨k, g⟩ := p
    rw [sweepRows_cons, List.mem_append] at hr
    rcases hr with hr | hr
    · cases hx : g.seen
      · rw [hx] at hr
        simp at hr
        obtain ⟨l, hl, hrl⟩ := hr
        exact ⟨(k, g), List.mem_cons_self _ _, hx, l, hl, hrl.symm⟩
      · rw [hx] at hr
        simp at hr
    · obtain ⟨p, hp, hseen, l, hl, hrl⟩ := ih hr
      exact ⟨p, List.mem_cons_of_mem _ hp, hseen, l, hl, hrl⟩

lemma probeLoop_stop (cfg : Config) (pfx : List InputItem) :
    ∀ (st : LState) (e : InputItem) (rest : List InputItem),
      wfProbeB cfg pfx = true → itemStopsB cfg e = true →
      probeLoop cfg (pfx ++ e :: rest) st = probeLoop cfg pfx st := by
  induction pfx with
  | nil =>
    intro st e rest _ he
    cases e with
    | readErr => rfl
    | ok raw =>
      simp only [itemStopsB, Option.isNone_iff_eq_none] at he
      simp [probeLoop, he]
  | cons it pfx2 ih =>
    intro st e rest hwf he
    cases it with
    | readErr => simp [wfProbeB, itemStopsB] at hwf
    | ok raw =>
      simp only [wfProbeB, List.all_cons, Bool.and_eq_true, Bool.not_eq_true'] at hwf
      obtain ⟨hok, hwf2⟩ := hwf
      simp only [itemStopsB, Option.isNone_iff_eq_none] at hok
      cases hp : parseFields cfg.field2 cfg.req2 cfg.outfields2 raw with
      | none => rw [hp] at hok; simp at hok
      | some line2 =>
        simp only [List.cons_append, probeLoop, hp, List.append_eq]
        rw [ih _ e rest hwf2 he]

/-- Largest element of a list of naturals, 0 for the empty list. -/
def natMax0 : List Nat → Nat
  | [] => 0
  | x :: rest => max x (natMax0 rest)

lemma toNat_max (a b : Int) : (max a b).toNat = max a.toNat b.toNat := by
  rcases le_total a b with h | h
  · rw [max_eq_right h, max_eq_right (Int.toNat_le_toNat h)]
  · rw [max_eq_left h, max_eq_left (Int.toNat_le_toNat h)]

lemma natMax0_map_toNat (xs : List Int) :
    natMax0 (xs.map Int.toNat) = (intMax0 xs).toNat := by
  induction xs with
  | nil => rfl
  | cons x rest ih => simp [natMax0, intMax0, ih, toNat_max]

lemma intMax0_ge_one (xs : List Int) (hne : xs ≠ []) (hpos : ∀ x ∈ xs, 1 ≤ x) :
    1 ≤ intMax0 xs := by
  cases xs with
  | nil => exact absurd rfl hne
  | cons x rest =>
    have hx : 1 ≤ x := hpos x (List.mem_cons_self _ _)
    simp only [intMax0]
    exact le_max_of_le_left hx

lemma seenSum_unseen_zero (t : Table) (h : ∀ p ∈ t, p.2.seen = false) : seenSum t = 0 := by
  induction t with
  | nil => rfl
  | cons p rest ih =>
    obtain ⟨k, g⟩ := p
    have hg : g.seen = false := h (k, g) (List.mem_cons_self _ _)
    rw [seenSum_cons, hg, ih (fun p hp => h p (List.mem_cons_of_mem _ hp))]
    simp

lemma setSeen_lines_pred (P : List (List FieldStr) → Prop) (t : Table) (k : FieldStr)
    (h : ∀ p ∈ t, P p.2.lines) : ∀ p ∈ setSeen t k, P p.2.lines := by
  induction t with
  | nil => intro p hp; simp [setSeen] at hp
  | cons q rest ih =>
    obtain ⟨k2, g⟩ := q
    have hg : P g.lines := h (k2, g) (List.mem_cons_self _ _)
    have hrest : ∀ p ∈ rest, P p.2.lines := fun p hp => h p (List.mem_cons_of_mem _ hp)
    intro p hp
    by_cases hk : k2 = k
    · subst hk
      rw [setSeen_cons_eq] at hp
      rcases List.mem_cons.mp hp with hp | hp
      · subst hp
        exact hg
      · exact hrest p hp
    · rw [setSeen_cons_ne _ _ _ _ hk] at hp
      rcases List.mem_cons.mp hp with hp | hp
      · subst hp
        exact hg
      · exact ih hrest p hp

lemma probeLoop_lines_pred (P : List (List FieldStr) → Prop) (cfg : Config)
    (items : List InputItem) :
    ∀ st : LState, (∀ p ∈ st.table, P p.2.lines) →
      ∀ p ∈ (probeLoop cfg items st).2.table, P p.2.lines := by
  induction items with
  | nil => intro st h; exact h
  | cons it rest ih =>
    intro st h
    cases it with
    | readErr => exact h
    | ok raw =>
      simp only [probeLoop]
      cases hp : parseFields cfg.field2 cfg.req2 cfg.outfields2 raw with
      | none => exact h
      | some line2 =>
        simp only []
        apply ih
        rw [processLine_table]
        exact setSeen_lines_pred P st.table _ h

lemma runPhase2_rows (cfg : Config) (t : Table) (probe : List InputItem) :
    (runPhase2 cfg t probe).rows =
      (probeLoop cfg probe ⟨t, ⟨0, 0, 0, 0⟩⟩).1 ++
        (if cfg.unpaired = 1 then
          sweepRows cfg (probeLoop cfg probe ⟨t, ⟨0, 0, 0, 0⟩⟩).2.table
         else []) := by
  simp [runPhase2]

lemma runPhase2_stats (cfg : Config) (t : Table) (probe : List InputItem) :
    (runPhase2 cfg t probe).stats =
      ⟨(probeLoop cfg probe ⟨t, ⟨0, 0, 0, 0⟩⟩).2.stats.out_lines +
          (if cfg.unpaired = 1 then
            sweepRows cfg (probeLoop cfg probe ⟨t, ⟨0, 0, 0, 0⟩⟩).2.table
           else []).length,
       (probeLoop cfg probe ⟨t, ⟨0, 0, 0, 0⟩⟩).2.stats.matched1,
       (probeLoop cfg probe ⟨t, ⟨0, 0, 0, 0⟩⟩).2.stats.matched2,
       (probeLoop cfg probe ⟨t, ⟨0, 0, 0, 0⟩⟩).2.stats.unmatched +
          (if cfg.unpaired = 1 then
            sweepRows cfg (probeLoop cfg probe ⟨t, ⟨0, 0, 0, 0⟩⟩).2.table
           else []).length⟩ := by
  simp [runPhase2]

lemma runPhase2_report (cfg : Config) (t : Table) (probe : List InputItem) :
    (runPhase2 cfg t probe).report = statsReport cfg (runPhase2 cfg t probe).stats := by
  simp [runPhase2]

/-- C1: with uniqueness waived (`-u`), a probe line whose key matches a
build-side group of size `k`, when paired output is not suppressed, emits
exactly `k` rows — one per line record of the group — each consisting of the
projected build-side fields followed by the projected probe-side fields. -/
theorem C1_hit_emits_one_row_per_group_line
    (cfg : Config) (bitems : List InputItem) (T : Table) (s : Stats)
    (line2 : List FieldStr) (g : KeyGroup)
    (hu : cfg.unique = false) (hsup : cfg.only_unpaired = false)
    (hb : buildTable cfg bitems = .ok T)
    (hg : findG T (keyAt cfg.field2 line2) = some g)
    (hlines : ∀ l ∈ g.lines, l ≠ []) (h2 : line2 ≠ []) :
    (processLine cfg line2 ⟨T, s⟩).1 = g.lines.map (fun l1 => pairRow cfg l1 line2) ∧
    (processLine cfg line2 ⟨T, s⟩).1.length = g.lines.length ∧
    ∀ r ∈ (processLine cfg line2 ⟨T, s⟩).1, ∃ l1, l1 ∈ g.lines ∧
      r = renderRow (projectFields l1 cfg.outfields1 ++ projectFields line2 cfg.outfields2)
            cfg.out_sep := by
  have h1 : (processLine cfg line2 ⟨T, s⟩).1 =
      g.lines.map (fun l1 => pairRow cfg l1 line2) := by
    simp [processLine, hg, hsup]
  refine ⟨h1, by rw [h1]; simp, ?_⟩
  intro r hr
  rw [h1] at hr
  simp only [List.mem_map] at hr
  obtain ⟨l1, hl1, hrl⟩ := hr
  exact ⟨l1, hl1, by rw [← hrl, pairRow_eq_renderRow cfg l1 line2 (hlines l1 hl1) h2]⟩

/-- Example configuration of a `-u` run with defaults otherwise. -/
def cfgDupU : Config := ⟨1, 1, 1, 1, [], [], 0, false, false, '\t', false, 0⟩

/-- Witness for C1 at Scenario C of the spec: `-u`, file 1 = `k 1` / `k 2`,
probe line `k X`. -/
theorem C1_witness :
    (processLine cfgDupU ["k", "X"]
        ⟨[("k", ⟨[["k", "1"], ["k", "2"]], false⟩)], ⟨0, 0, 0, 0⟩⟩).1 =
      [["k", "1"], ["k", "2"]].map (fun l1 => pairRow cfgDupU l1 ["k", "X"]) ∧
    (processLine cfgDupU ["k", "X"]
        ⟨[("k", ⟨[["k", "1"], ["k", "2"]], false⟩)], ⟨0, 0, 0, 0⟩⟩).1.length =
      ([["k", "1"], ["k", "2"]] : List (List FieldStr)).length ∧
    ∀ r ∈ (processLine cfgDupU ["k", "X"]
        ⟨[("k", ⟨[["k", "1"], ["k", "2"]], false⟩)], ⟨0, 0, 0, 0⟩⟩).1,
      ∃ l1, l1 ∈ ([["k", "1"], ["k", "2"]] : List (List FieldStr)) ∧
        r = renderRow (projectFields l1 cfgDupU.outfields1 ++
              projectFields ["k", "X"] cfgDupU.outfields2) cfgDupU.out_sep :=
  C1_hit_emits_one_row_per_group_line cfgDupU
    [.ok ["k", "1"], .ok ["k", "2"]] [("k", ⟨[["k", "1"], ["k", "2"]], false⟩)]
    ⟨0, 0, 0, 0⟩ ["k", "X"] ⟨[["k", "1"], ["k", "2"]], false⟩
    rfl rfl rfl rfl (by decide) (by decide)

/-- C2: with uniqueness required (the default), a build-side line whose key
repeats an earlier build-side key aborts the run with a DuplicateKey error
naming the key and the 1-based line number; the exit code is 1 and the
result does not depend on the probe input (no probe processing, no rows). -/
theorem C2_duplicate_key_fatal
    (cfg : Config) (pre rest probe probe2 : List InputItem)
    (raw fields ks : List FieldStr)
    (hu : cfg.unique = true)
    (hpre : preKeys cfg pre = some ks) (hnd : ks.Nodup)
    (hp : parseFields cfg.field1 cfg.req1 cfg.outfields1 raw = some fields)
    (hk : keyAt cfg.field1 fields ∈ ks) :
    runJoin cfg (pre ++ .ok raw :: rest) probe =
      .error (.dupKey (keyAt cfg.field1 fields) (pre.length + 1)) ∧
    runJoin cfg (pre ++ .ok raw :: rest) probe =
      runJoin cfg (pre ++ .ok raw :: rest) probe2 ∧
    runExit cfg (pre ++ .ok raw :: rest) probe = 1 := by
  obtain ⟨t2, h1, h2⟩ :=
    buildGo_skip cfg hu pre (.ok raw :: rest) 1 [] ks hpre (by simpa [keysOf] using hnd)
  have hmem : keyAt cfg.field1 fields ∈ keysOf t2 := by
    rw [h2]
    simpa [keysOf] using hk
  have hfind : (findG t2 (keyAt cfg.field1 fields)).isSome = true :=
    (findG_isSome_iff _ _).mpr hmem
  have hbuild : buildTable cfg (pre ++ .ok raw :: rest) =
      .error (.dupKey (keyAt cfg.field1 fields) (pre.length + 1)) := by
    unfold buildTable
    rw [h1]
    simp only [buildGo, hp]
    rw [if_pos ⟨hu, hfind⟩, Nat.add_comm 1 pre.length]
  exact ⟨by simp [runJoin, hbuild], by simp [runJoin, hbuild],
    by simp [runExit, runJoin, hbuild]⟩

/-- Default configuration (uniqueness required, no policies). -/
def cfgDflt : Config := ⟨1, 1, 1, 1, [], [], 0, false, true, '\t', false, 0⟩

/-- Witness for C2 at Scenario B of the spec: file 1 = `k 1` / `k 2` reports
the duplicate key `k` on line 2 and exits 1 for any probe input. -/
theorem C2_witness :
    runJoin cfgDflt ([.ok ["k", "1"]] ++ .ok ["k", "2"] :: []) [.ok ["k", "X"]] =
      .error (.dupKey (keyAt cfgDflt.field1 ["k", "2"]) 2) ∧
    runJoin cfgDflt ([.ok ["k", "1"]] ++ .ok ["k", "2"] :: []) [.ok ["k", "X"]] =
      runJoin cfgDflt ([.ok ["k", "1"]] ++ .ok ["k", "2"] :: []) [] ∧
    runExit cfgDflt ([.ok ["k", "1"]] ++ .ok ["k", "2"] :: []) [.ok ["k", "X"]] = 1 :=
  C2_duplicate_key_fatal cfgDflt [.ok ["k", "1"]] [] [.ok ["k", "X"]] []
    ["k", "2"] ["k", "2"] ["k"] rfl rfl (by decide) rfl (by decide)

/-- Specification-side count (following the claim's words, for comparison):
the number of distinct build-side keys (groups) that received at least one
probe hit. -/
def spec_distinctHitBuildKeys (cfg : Config) (T : Table) (probe : List InputItem) : Nat :=
  ((keysOf T).filter (fun k => decide (k ∈ parsedKeys cfg probe))).length

/-- C3 counterexample: with `-u`, build lines `k 1` / `k 2` and one probe
line `k X`, the reported matched-from-build counter is 2 (the group size),
while the number of distinct hit build-side keys is 1: the claim's equality
fails on this run. -/
theorem C3_counterexample :
    runJoin cfgDupU [.ok ["k", "1"], .ok ["k", "2"]] [.ok ["k", "X"]] =
      .ok ⟨["k\t1\tk\tX", "k\t2\tk\tX"], ⟨2, 2, 1, 0⟩,
           ["Matched lines from file 1: 2", "Matched lines from file 2: 1",
            "Total lines output: 2"]⟩ ∧
    spec_distinctHitBuildKeys cfgDupU [("k", ⟨[["k", "1"], ["k", "2"]], false⟩)]
      [.ok ["k", "X"]] = 1 ∧
    (2 : Nat) ≠ 1 :=
  ⟨rfl, rfl, by decide⟩

/-- C3 (amended): the matched-from-build counter equals the total number of
build-side lines contained in the groups that received at least one probe
hit (each group's size added once, at its first hit); in suppress-matches
(`-v`) runs it stays 0. -/
theorem C3_matched_from_build_amended
    (cfg : Config) (bitems probe : List InputItem) (T : Table)
    (hb : buildTable cfg bitems = .ok T) :
    (cfg.only_unpaired = false →
      (runPhase2 cfg T probe).stats.matched1 = hitSum T (parsedKeys cfg probe)) ∧
    (cfg.only_unpaired = true → (runPhase2 cfg T probe).stats.matched1 = 0) := by
  obtain ⟨hunseen, hnd⟩ := buildTable_inv cfg bitems T hb
  have hm1 : (runPhase2 cfg T probe).stats.matched1 =
      (probeLoop cfg probe ⟨T, ⟨0, 0, 0, 0⟩⟩).2.stats.matched1 := by
    rw [runPhase2_stats]
  constructor
  · intro hsup
    rw [hm1, probeLoop_matched1_main cfg probe hsup ⟨T, ⟨0, 0, 0, 0⟩⟩
      (by simpa using (seenSum_unseen_zero T hunseen).symm),
      probeLoop_table cfg probe ⟨T, ⟨0, 0, 0, 0⟩⟩ hnd,
      seenSum_markAll_unseen T _ hunseen]
  · intro hsup
    rw [hm1, probeLoop_matched1_suppress cfg probe hsup]

/-- Witness for the amended C3 at Scenario C: matched-from-build is the
group-size total over hit groups (here 2), and 0 under `-v`. -/
theorem C3_amended_witness :
    (cfgDupU.only_unpaired = false →
      (runPhase2 cfgDupU [("k", ⟨[["k", "1"], ["k", "2"]], false⟩)]
          [.ok ["k", "X"]]).stats.matched1 =
        hitSum [("k", ⟨[["k", "1"], ["k", "2"]], false⟩)]
          (parsedKeys cfgDupU [.ok ["k", "X"]])) ∧
    (cfgDupU.only_unpaired = true →
      (runPhase2 cfgDupU [("k", ⟨[["k", "1"], ["k", "2"]], false⟩)]
          [.ok ["k", "X"]]).stats.matched1 = 0) :=
  C3_matched_from_build_amended cfgDupU [.ok ["k", "1"], .ok ["k", "2"]]
    [.ok ["k", "X"]] [("k", ⟨[["k", "1"], ["k", "2"]], false⟩)] rfl

/-- Configuration of a `-a 2` run with defaults otherwise. -/
def cfgA2 : Config := ⟨1, 1, 1, 1, [], [], 2, false, true, '\t', false, 0⟩

/-- C5 counterexample: in a `-a 2` run with no output field lists, the
unmatched probe line `b Y` is emitted as `b⟨tab⟩Y` — the absent build side
contributes no field at all — whereas the claim's "exactly one empty field"
would produce `⟨tab⟩b⟨tab⟩Y`. -/
theorem C5_counterexample :
    runJoin cfgA2 [.ok ["a", "1"]] [.ok ["b", "Y"]] =
      .ok ⟨["b\tY"], ⟨1, 0, 0, 1⟩,
           ["Matched lines from file 1: 0", "Matched lines from file 2: 0",
            "Unmatched lines from file 2: 1", "Total lines output: 1"]⟩ ∧
    renderRow ("" :: projectFields ["b", "Y"] cfgA2.outfields2) cfgA2.out_sep = "\tb\tY" ∧
    ("b\tY" : String) ≠ "\tb\tY" :=
  ⟨rfl, rfl, by decide⟩

/-- C5 (amended): on unmatched-row emission the absent side contributes one
empty field per listed output field when its field list is non-empty, and
nothing at all (zero fields — the `WriteFields` call is skipped) when its
field list is empty. -/
theorem C5_placeholder_fields_amended
    (cfg : Config) (line1 line2 : List FieldStr) (h1 : line1 ≠ []) (h2 : line2 ≠ []) :
    unpairedProbeRow cfg line2 =
      renderRow ((if cfg.outfields1.isEmpty then []
                  else List.replicate cfg.outfields1.length "")
                 ++ projectFields line2 cfg.outfields2) cfg.out_sep ∧
    unpairedBuildRow cfg line1 =
      renderRow (projectFields line1 cfg.outfields1
                 ++ (if cfg.outfields2.isEmpty then []
                     else List.replicate cfg.outfields2.length "")) cfg.out_sep :=
  ⟨unpairedProbeRow_eq_renderRow cfg line2 h2, unpairedBuildRow_eq_renderRow cfg line1 h1⟩

/-- Witness for the amended C5 on concrete lines. -/
theorem C5_amended_witness :
    unpairedProbeRow cfgA2 ["b", "Y"] =
      renderRow ((if cfgA2.outfields1.isEmpty then []
                  else List.replicate cfgA2.outfields1.length "")
                 ++ projectFields ["b", "Y"] cfgA2.outfields2) cfgA2.out_sep ∧
    unpairedBuildRow cfgA2 ["a", "1"] =
      renderRow (projectFields ["a", "1"] cfgA2.outfields1
                 ++ (if cfgA2.outfields2.isEmpty then []
                     else List.replicate cfgA2.outfields2.length "")) cfgA2.out_sep :=
  C5_placeholder_fields_amended cfgA2 ["a", "1"] ["b", "Y"] (by decide) (by decide)

/-- C6: in a `-a 1` run, after the probe loop the output gains exactly the
sweep rows of the still-unseen groups: their total count is the number of
build-side lines in unseen groups, the unmatched and out-lines counters grow
by exactly that count, and every sweep row is the projected build-side
fields followed by the empty probe-side placeholder fields. -/
theorem C6_unpaired_build_sweep
    (cfg : Config) (t : Table) (probe : List InputItem)
    (ha : cfg.unpaired = 1)
    (hlines : ∀ p ∈ t, ∀ l ∈ p.2.lines, l ≠ []) :
    (runPhase2 cfg t probe).rows =
      (probeLoop cfg probe ⟨t, ⟨0, 0, 0, 0⟩⟩).1 ++
        sweepRows cfg (probeLoop cfg probe ⟨t, ⟨0, 0, 0, 0⟩⟩).2.table ∧
    (sweepRows cfg (probeLoop cfg probe ⟨t, ⟨0, 0, 0, 0⟩⟩).2.table).length =
      unseenSum (probeLoop cfg probe ⟨t, ⟨0, 0, 0, 0⟩⟩).2.table ∧
    (runPhase2 cfg t probe).stats.unmatched =
      (probeLoop cfg probe ⟨t, ⟨0, 0, 0, 0⟩⟩).2.stats.unmatched +
        unseenSum (probeLoop cfg probe ⟨t, ⟨0, 0, 0, 0⟩⟩).2.table ∧
    (runPhase2 cfg t probe).stats.out_lines =
      (probeLoop cfg probe ⟨t, ⟨0, 0, 0, 0⟩⟩).2.stats.out_lines +
        unseenSum (probeLoop cfg probe ⟨t, ⟨0, 0, 0, 0⟩⟩).2.table ∧
    ∀ r ∈ sweepRows cfg (probeLoop cfg probe ⟨t, ⟨0, 0, 0, 0⟩⟩).2.table,
      ∃ p, p ∈ (probeLoop cfg probe ⟨t, ⟨0, 0, 0, 0⟩⟩).2.table ∧ p.2.seen = false ∧
        ∃ l, l ∈ p.2.lines ∧
          r = renderRow (projectFields l cfg.outfields1 ++
                (if cfg.outfields2.isEmpty then []
                 else List.replicate cfg.outfields2.length "")) cfg.out_sep := by
  have hsw := sweepRows_length cfg (probeLoop cfg probe ⟨t, ⟨0, 0, 0, 0⟩⟩).2.table
  refine ⟨by rw [runPhase2_rows, if_pos ha], hsw, ?_, ?_, ?_⟩
  · rw [runPhase2_stats, if_pos ha, hsw]
  · rw [runPhase2_stats, if_pos ha, hsw]
  · intro r hr
    obtain ⟨p, hp, hseen, l, hl, hrl⟩ := sweepRows_mem cfg _ r hr
    have hlp : ∀ l2 ∈ p.2.lines, l2 ≠ [] :=
      probeLoop_lines_pred (fun ls => ∀ l2 ∈ ls, l2 ≠ []) cfg probe
        ⟨t, ⟨0, 0, 0, 0⟩⟩ hlines p hp
    exact ⟨p, hp, hseen, l, hl,
      by rw [hrl, unpairedBuildRow_eq_renderRow cfg l (hlp l hl)]⟩

/-- Configuration of a `-a 1` run with defaults otherwise. -/
def cfgA1 : Config := ⟨1, 1, 1, 1, [], [], 1, false, true, '\t', false, 0⟩

/-- Witness for C6 on a run with one hit and one unseen group. -/
theorem C6_witness :
    (runPhase2 cfgA1 [("a", ⟨[["a", "1"]], false⟩), ("b", ⟨[["b", "2"]], false⟩)]
        [.ok ["a", "X"]]).rows =
      (probeLoop cfgA1 [.ok ["a", "X"]]
          ⟨[("a", ⟨[["a", "1"]], false⟩), ("b", ⟨[["b", "2"]], false⟩)], ⟨0, 0, 0, 0⟩⟩).1 ++
        sweepRows cfgA1 (probeLoop cfgA1 [.ok ["a", "X"]]
          ⟨[("a", ⟨[["a", "1"]], false⟩), ("b", ⟨[["b", "2"]], false⟩)], ⟨0, 0, 0, 0⟩⟩).2.table ∧
    (sweepRows cfgA1 (probeLoop cfgA1 [.ok ["a", "X"]]
        ⟨[("a", ⟨[["a", "1"]], false⟩), ("b", ⟨[["b", "2"]], false⟩)], ⟨0, 0, 0, 0⟩⟩).2.table).length =
      unseenSum (probeLoop cfgA1 [.ok ["a", "X"]]
        ⟨[("a", ⟨[["a", "1"]], false⟩), ("b", ⟨[["b", "2"]], false⟩)], ⟨0, 0, 0, 0⟩⟩).2.table ∧
    (runPhase2 cfgA1 [("a", ⟨[["a", "1"]], false⟩), ("b", ⟨[["b", "2"]], false⟩)]
        [.ok ["a", "X"]]).stats.unmatched =
      (probeLoop cfgA1 [.ok ["a", "X"]]
          ⟨[("a", ⟨[["a", "1"]], false⟩), ("b", ⟨[["b", "2"]], false⟩)], ⟨0, 0, 0, 0⟩⟩).2.stats.unmatched +
        unseenSum (probeLoop cfgA1 [.ok ["a", "X"]]
          ⟨[("a", ⟨[["a", "1"]], false⟩), ("b", ⟨[["b", "2"]], false⟩)], ⟨0, 0, 0, 0⟩⟩).2.table ∧
    (runPhase2 cfgA1 [("a", ⟨[["a", "1"]], false⟩), ("b", ⟨[["b", "2"]], false⟩)]
        [.ok ["a", "X"]]).stats.out_lines =
      (probeLoop cfgA1 [.ok ["a", "X"]]
          ⟨[("a", ⟨[["a", "1"]], false⟩), ("b", ⟨[["b", "2"]], false⟩)], ⟨0, 0, 0, 0⟩⟩).2.stats.out_lines +
        unseenSum (probeLoop cfgA1 [.ok ["a", "X"]]
          ⟨[("a", ⟨[["a", "1"]], false⟩), ("b", ⟨[["b", "2"]], false⟩)], ⟨0, 0, 0, 0⟩⟩).2.table ∧
    ∀ r ∈ sweepRows cfgA1 (probeLoop cfgA1 [.ok ["a", "X"]]
        ⟨[("a", ⟨[["a", "1"]], false⟩), ("b", ⟨[["b", "2"]], false⟩)], ⟨0, 0, 0, 0⟩⟩).2.table,
      ∃ p, p ∈ (probeLoop cfgA1 [.ok ["a", "X"]]
          ⟨[("a", ⟨[["a", "1"]], false⟩), ("b", ⟨[["b", "2"]], false⟩)], ⟨0, 0, 0, 0⟩⟩).2.table ∧
        p.2.seen = false ∧
        ∃ l, l ∈ p.2.lines ∧
          r = renderRow (projectFields l cfgA1.outfields1 ++
                (if cfgA1.outfields2.isEmpty then []
                 else List.replicate cfgA1.outfields2.length "")) cfgA1.out_sep :=
  C6_unpaired_build_sweep cfgA1
    [("a", ⟨[["a", "1"]], false⟩), ("b", ⟨[["b", "2"]], false⟩)]
    [.ok ["a", "X"]] rfl (by decide)

/-- C7: for every run and every policy configuration, the matched-from-probe
counter equals the number of processed probe lines whose key occurs among
the build-table keys (first conjunct, with no policy hypothesis at all); and
a probe miss under `-a 2` / `-v 2` emits exactly one synthetic row while
incrementing only the unmatched counter, leaving both matched counters
untouched. -/
theorem C7_matched_from_probe_and_miss
    (cfg : Config) (t : Table) (probe : List InputItem)
    (line2 : List FieldStr) (s : Stats) :
    ((runPhase2 cfg t probe).stats.matched2 =
      (parsedKeys cfg probe).countP (fun k => decide (k ∈ keysOf t))) ∧
    (findG t (keyAt cfg.field2 line2) = none → cfg.unpaired = 2 →
      processLine cfg line2 ⟨t, s⟩ =
        ([unpairedProbeRow cfg line2],
         ⟨t, ⟨s.out_lines + 1, s.matched1, s.matched2, s.unmatched + 1⟩⟩)) := by
  constructor
  · rw [runPhase2_stats]
    have := probeLoop_matched2 cfg probe ⟨t, ⟨0, 0, 0, 0⟩⟩
    simpa using this
  · intro hmiss ha
    simp [processLine, hmiss, ha]

/-- Witness for C7: the counter equality on a no-policy (plain inner join)
run with one hit and one miss, and a concrete `-a 2` miss step. -/
theorem C7_witness :
    ((runPhase2 cfgDflt [("a", ⟨[["a", "1"]], false⟩)]
        [.ok ["a", "X"], .ok ["b", "Y"]]).stats.matched2 =
      (parsedKeys cfgDflt [.ok ["a", "X"], .ok ["b", "Y"]]).countP
        (fun k => decide (k ∈ keysOf [("a", ⟨[["a", "1"]], false⟩)]))) ∧
    processLine cfgA2 ["c", "Z"] ⟨[("a", ⟨[["a", "1"]], false⟩)], ⟨5, 6, 7, 8⟩⟩ =
      ([unpairedProbeRow cfgA2 ["c", "Z"]],
       ⟨[("a", ⟨[["a", "1"]], false⟩)], ⟨5 + 1, 6, 7, 8 + 1⟩⟩) :=
  have h1 := C7_matched_from_probe_and_miss cfgDflt [("a", ⟨[["a", "1"]], false⟩)]
    [.ok ["a", "X"], .ok ["b", "Y"]] ["c", "Z"] ⟨5, 6, 7, 8⟩
  have h2 := C7_matched_from_probe_and_miss cfgA2 [("a", ⟨[["a", "1"]], false⟩)]
    [.ok ["a", "X"], .ok ["b", "Y"]] ["c", "Z"] ⟨5, 6, 7, 8⟩
  ⟨h1.1, h2.2 rfl rfl⟩

/-- C9: a probe-side read or parse error terminates the probe loop early but
not the run: the result equals that of the run truncated at the error, the
statistics report is still produced from the final counters, and in a `-a 1`
run the unmatched-build sweep rows are still appended to the output. -/
theorem C9_probe_error_epilogue
    (cfg : Config) (t : Table) (pfx rest : List InputItem) (e : InputItem)
    (hwf : wfProbeB cfg pfx = true) (he : itemStopsB cfg e = true) :
    runPhase2 cfg t (pfx ++ e :: rest) = runPhase2 cfg t pfx ∧
    (runPhase2 cfg t (pfx ++ e :: rest)).report =
      statsReport cfg (runPhase2 cfg t (pfx ++ e :: rest)).stats ∧
    (cfg.unpaired = 1 →
      (runPhase2 cfg t (pfx ++ e :: rest)).rows =
        (probeLoop cfg pfx ⟨t, ⟨0, 0, 0, 0⟩⟩).1 ++
          sweepRows cfg (probeLoop cfg pfx ⟨t, ⟨0, 0, 0, 0⟩⟩).2.table) := by
  have hstop := probeLoop_stop cfg pfx ⟨t, ⟨0, 0, 0, 0⟩⟩ e rest hwf he
  have hmain : runPhase2 cfg t (pfx ++ e :: rest) = runPhase2 cfg t pfx := by
    unfold runPhase2
    rw [hstop]
  refine ⟨hmain, runPhase2_report cfg t _, fun h1 => ?_⟩
  rw [hmain, runPhase2_rows, if_pos h1]

/-- Witness for C9: a `-a 1` run whose probe stream hits a too-few-fields
line after one good line. -/
theorem C9_witness :
    runPhase2 cfgA1 [("a", ⟨[["a", "1"]], false⟩)]
        ([.ok ["a", "X"]] ++ .ok [] :: [.ok ["zz"]]) =
      runPhase2 cfgA1 [("a", ⟨[["a", "1"]], false⟩)] [.ok ["a", "X"]] ∧
    (runPhase2 cfgA1 [("a", ⟨[["a", "1"]], false⟩)]
        ([.ok ["a", "X"]] ++ .ok [] :: [.ok ["zz"]])).report =
      statsReport cfgA1 (runPhase2 cfgA1 [("a", ⟨[["a", "1"]], false⟩)]
        ([.ok ["a", "X"]] ++ .ok [] :: [.ok ["zz"]])).stats ∧
    (cfgA1.unpaired = 1 →
      (runPhase2 cfgA1 [("a", ⟨[["a", "1"]], false⟩)]
          ([.ok ["a", "X"]] ++ .ok [] :: [.ok ["zz"]])).rows =
        (probeLoop cfgA1 [.ok ["a", "X"]]
            ⟨[("a", ⟨[["a", "1"]], false⟩)], ⟨0, 0, 0, 0⟩⟩).1 ++
          sweepRows cfgA1 (probeLoop cfgA1 [.ok ["a", "X"]]
            ⟨[("a", ⟨[["a", "1"]], false⟩)], ⟨0, 0, 0, 0⟩⟩).2.table) :=
  C9_probe_error_epilogue cfgA1 [("a", ⟨[["a", "1"]], false⟩)]
    [.ok ["a", "X"]] [.ok ["zz"]] (.ok []) (by decide) (by decide)

/-- C8: the hash seed selection.  The source declares `uint64_t seed; bool
use_seed;` without initializers (hashjoin.cpp lines 266-267) and branches on
`use_seed` at line 372, so a run without `-s` reads an indeterminate value:
with junk `use_seed = true` and junk `seed = 12345` the hasher is seeded
with 12345 rather than the default constant, and keys hash differently.
With a well-behaved junk value (`use_seed = false`) the default constant
0xe6573480bcc4fcea is used, and `-s NUM` sets the seed to NUM (note that
`case 's'` does not consume its value argument, which therefore becomes the
first filename). -/
theorem C8_seed_selection_uninitialized
    : parseArgs true 12345 ["f", "g"] =
        .ok ⟨1, 1, 1, 1, [], [], 0, false, true, '\t', true, 12345⟩ "f" "g" false ∧
      effectiveSeed ⟨1, 1, 1, 1, [], [], 0, false, true, '\t', true, 12345⟩ = 12345 ∧
      parseArgs false 999 ["f", "g"] =
        .ok ⟨1, 1, 1, 1, [], [], 0, false, true, '\t', false, 999⟩ "f" "g" false ∧
      effectiveSeed ⟨1, 1, 1, 1, [], [], 0, false, true, '\t', false, 999⟩ = defaultSeed ∧
      parseArgs false 0 ["-s", "7", "f", "g"] =
        .ok ⟨1, 1, 1, 1, [], [], 0, false, true, '\t', true, 7⟩ "7" "f" false ∧
      effectiveSeed ⟨1, 1, 1, 1, [], [], 0, false, true, '\t', true, 7⟩ = 7 ∧
      defaultSeed = 0xe6573480bcc4fcea ∧
      (12345 : Nat) ≠ defaultSeed ∧
      murmurHash64A (strBytes "k") 12345 ≠ murmurHash64A (strBytes "k") defaultSeed := by
  refine ⟨rfl, by decide, rfl, by decide, rfl, by decide, rfl, by decide, by decide⟩

/-- C4 counterexample: a run with default options whose probe stream begins
with a line that has too few fields (a probe-side parse error under this
configuration) still exits with code 0, not 1 as the claim requires for
parse errors on either side. -/
theorem C4_counterexample :
    parseArgs false 0 ["f", "g"] = .ok cfgDflt "f" "g" false ∧
    itemStopsB cfgDflt (.ok []) = true ∧
    exitCodeFull false 0 ["f", "g"] [.ok ["a", "1"]] [.ok []] = 0 ∧
    (0 : Nat) ≠ 1 :=
  ⟨rfl, by decide, rfl, by decide⟩

/-- C4 (amended): the exit code is always 0 or 1; it is 1 on configuration
errors and (in non-header runs) on build-side errors including duplicate
keys, and it is 0 whenever the build phase succeeds — regardless of the
probe input, whose read and parse errors only terminate the loop early. -/
theorem C4_exit_codes_amended
    (j1 : Bool) (j2 : Nat) (argv : List String) (b p p2 : List InputItem)
    (cfg : Config) (f1 f2 : String) :
    (exitCodeFull j1 j2 argv b p = 0 ∨ exitCodeFull j1 j2 argv b p = 1) ∧
    (parseArgs j1 j2 argv = .err → exitCodeFull j1 j2 argv b p = 1) ∧
    (parseArgs j1 j2 argv = .ok cfg f1 f2 false →
      ((∀ e, buildTable cfg b = .error e → exitCodeFull j1 j2 argv b p = 1) ∧
       (∀ T, buildTable cfg b = .ok T → exitCodeFull j1 j2 argv b p = 0) ∧
       exitCodeFull j1 j2 argv b p = exitCodeFull j1 j2 argv b p2)) := by
  refine ⟨?_, ?_, ?_⟩
  · unfold exitCodeFull
    rcases hpa : parseArgs j1 j2 argv with _ | _ | ⟨c, g1, g2, hd⟩
    · right; rfl
    · left; rfl
    · dsimp only
      rcases hb1 : (if hd = true then headerConsume c.req1 b else some b) with _ | b2
      · right; rfl
      · dsimp only
        rcases hb2 : buildTable c b2 with e | T
        · right; rfl
        · dsimp only
          rcases hp2 : (if hd = true then headerConsume c.req2 p else some p) with _ | p3
          · right; rfl
          · left; rfl
  · intro hpe
    unfold exitCodeFull
    rw [hpe]
  · intro hpo
    unfold exitCodeFull
    rw [hpo]
    simp only [if_neg Bool.false_ne_true]
    refine ⟨?_, ?_, ?_⟩
    · intro e he
      simp only [he]
    · intro T hT
      simp only [hT]
    · rcases hb2 : buildTable cfg b with e | T <;> simp only [hb2]

/-- Witness for the amended C4: the default-config run with an erroring
probe stream exits 0, and the exit code does not depend on the probe
input. -/
theorem C4_amended_witness :
    (exitCodeFull false 0 ["f", "g"] [.ok ["a", "1"]] [.ok []] = 0 ∨
      exitCodeFull false 0 ["f", "g"] [.ok ["a", "1"]] [.ok []] = 1) ∧
    parseArgs false 0 ["f", "g"] = .ok cfgDflt "f" "g" false ∧
    (∀ T, buildTable cfgDflt [.ok ["a", "1"]] = .ok T →
      exitCodeFull false 0 ["f", "g"] [.ok ["a", "1"]] [.ok []] = 0) ∧
    exitCodeFull false 0 ["f", "g"] [.ok ["a", "1"]] [.ok []] =
      exitCodeFull false 0 ["f", "g"] [.ok ["a", "1"]] [] :=
  have h := C4_exit_codes_amended false 0 ["f", "g"] [.ok ["a", "1"]] [.ok []] []
    cfgDflt "f" "g"
  ⟨h.1, rfl, (h.2.2 rfl).2.1, (h.2.2 rfl).2.2⟩

/-- C10: field-consumption bounds.  With an explicit non-empty output field
list the required field count is the maximum of the join field index and the
largest listed output field index, a line with at least that many fields
parses to exactly its first `req` fields (extras ignored) and a shorter line
is a parse error; without an output field list the whole line is kept and
only the join-field lower bound applies.  Stated for a representative
single-option argument vector on each side (the option values `s1`, `so`
are arbitrary strings). -/
theorem C10_parse_bound
    (j1 : Bool) (j2 : Nat) (s1 so : String)
    (cfgA cfgB cfgC cfgD : Config)
    (fa1 fa2 fb1 fb2 fc1 fc2 fd1 fd2 : String) (ha hb hc hd : Bool) :
    (parseArgs j1 j2 ["-1", s1, "-o1", so, "f", "g"] = .ok cfgA fa1 fa2 ha →
      cfgA.outfields1 ≠ [] →
      (cfgA.req1 = max cfgA.field1 (natMax0 cfgA.outfields1) ∧
       (∀ raw : List FieldStr, cfgA.req1 ≤ raw.length →
         parseFields cfgA.field1 cfgA.req1 cfgA.outfields1 raw = some (raw.take cfgA.req1)) ∧
       (∀ raw : List FieldStr, raw.length < cfgA.req1 →
         parseFields cfgA.field1 cfgA.req1 cfgA.outfields1 raw = none))) ∧
    (parseArgs j1 j2 ["-1", s1, "f", "g"] = .ok cfgB fb1 fb2 hb →
      (cfgB.outfields1 = [] ∧ cfgB.req1 = cfgB.field1 ∧
       (∀ raw : List FieldStr, parseFields cfgB.field1 cfgB.req1 cfgB.outfields1 raw =
         if raw.length < cfgB.field1 then none else some raw))) ∧
    (parseArgs j1 j2 ["-2", s1, "-o2", so, "f", "g"] = .ok cfgC fc1 fc2 hc →
      cfgC.outfields2 ≠ [] →
      (cfgC.req2 = max cfgC.field2 (natMax0 cfgC.outfields2) ∧
       (∀ raw : List FieldStr, cfgC.req2 ≤ raw.length →
         parseFields cfgC.field2 cfgC.req2 cfgC.outfields2 raw = some (raw.take cfgC.req2)) ∧
       (∀ raw : List FieldStr, raw.length < cfgC.req2 →
         parseFields cfgC.field2 cfgC.req2 cfgC.outfields2 raw = none))) ∧
    (parseArgs j1 j2 ["-2", s1, "f", "g"] = .ok cfgD fd1 fd2 hd →
      (cfgD.outfields2 = [] ∧ cfgD.req2 = cfgD.field2 ∧
       (∀ raw : List FieldStr, parseFields cfgD.field2 cfgD.req2 cfgD.outfields2 raw =
         if raw.length < cfgD.field2 then none else some raw))) := by
  have eD1 : ("-1").data = ['-', '1'] := rfl
  have eD2 : ("-2").data = ['-', '2'] := rfl
  have eDo1 : ("-o1").data = ['-', 'o', '1'] := rfl
  have eDo2 : ("-o2").data = ['-', 'o', '2'] := rfl
  have eF : ("f").data = ['f'] := rfl
  refine ⟨?_, ?_, ?_, ?_⟩
  · intro h hne
    by_cases hg1 : (so.data.headD (Char.ofNat 0) = Char.ofNat 0 ∨ so.data.headD (Char.ofNat 0) = '-')
    · simp only [parseArgs, parseOpts, eD1, eD2, eDo1, eDo2, eF, optStep, initOpt, List.headD_cons,
      List.headD_nil, finishArgs,
      (by decide : ('o' : Char) ≠ '1'), (by decide : ('o' : Char) ≠ '2'),
      (by decide : ('o' : Char) ≠ 'j'), (by decide : ('o' : Char) ≠ 't'),
      (by decide : ('o' : Char) ≠ 'C'), (by decide : ('o' : Char) ≠ 'a'),
      (by decide : ('o' : Char) ≠ 'v'), (by decide : ('2' : Char) ≠ '1'),
      eq_self_iff_true, if_true, if_false, true_or, or_true, hg1] at h
      rw [if_neg (by decide : ¬("f" : String) = "g")] at h
      split at h
      · simp at h
      · rw [ParseResult.ok.injEq] at h
        obtain ⟨hcfg, -, -, -⟩ := h
        subst hcfg
        simp [mkConfig] at hne
    · rcases hread : readIntList so with _ | xs
      · simp only [parseArgs, parseOpts, eD1, eD2, eDo1, eDo2, eF, optStep, initOpt, List.headD_cons,
      List.headD_nil, finishArgs,
      (by decide : ('o' : Char) ≠ '1'), (by decide : ('o' : Char) ≠ '2'),
      (by decide : ('o' : Char) ≠ 'j'), (by decide : ('o' : Char) ≠ 't'),
      (by decide : ('o' : Char) ≠ 'C'), (by decide : ('o' : Char) ≠ 'a'),
      (by decide : ('o' : Char) ≠ 'v'), (by decide : ('2' : Char) ≠ '1'),
      eq_self_iff_true, if_true, if_false, true_or, or_true, hg1, hread] at h
        exact absurd h (by simp)
      · by_cases hval : (xs.isEmpty = true ∨ (xs.any fun x => decide (x < 1)) = true)
        · simp only [parseArgs, parseOpts, eD1, eD2, eDo1, eDo2, eF, optStep, initOpt, List.headD_cons,
      List.headD_nil, finishArgs,
      (by decide : ('o' : Char) ≠ '1'), (by decide : ('o' : Char) ≠ '2'),
      (by decide : ('o' : Char) ≠ 'j'), (by decide : ('o' : Char) ≠ 't'),
      (by decide : ('o' : Char) ≠ 'C'), (by decide : ('o' : Char) ≠ 'a'),
      (by decide : ('o' : Char) ≠ 'v'), (by decide : ('2' : Char) ≠ '1'),
      eq_self_iff_true, if_true, if_false, true_or, or_true, hg1, hread, hval] at h
          exact absurd h (by simp)
        · simp only [parseArgs, parseOpts, eD1, eD2, eDo1, eDo2, eF, optStep, initOpt, List.headD_cons,
      List.headD_nil, finishArgs,
      (by decide : ('o' : Char) ≠ '1'), (by decide : ('o' : Char) ≠ '2'),
      (by decide : ('o' : Char) ≠ 'j'), (by decide : ('o' : Char) ≠ 't'),
      (by decide : ('o' : Char) ≠ 'C'), (by decide : ('o' : Char) ≠ 'a'),
      (by decide : ('o' : Char) ≠ 'v'), (by decide : ('2' : Char) ≠ '1'),
      eq_self_iff_true, if_true, if_false, true_or, or_true, hg1, hread, hval] at h
          rw [if_neg (by decide : ¬("f" : String) = "g")] at h
          split at h
          · simp at h
          · rename_i hcond
            rw [ParseResult.ok.injEq] at h
            obtain ⟨hcfg, -, -, -⟩ := h
            subst hcfg
            simp only [not_or, not_lt] at hcond
            have hge : (1 : Int) ≤ atoi s1 := by
              rcases hcond with ⟨ha, hb⟩
              omega
            simp only [not_or, Bool.not_eq_true] at hval
            obtain ⟨hxne, hxpos⟩ := hval
            have hxne2 : xs ≠ [] := by
              intro hx
              rw [hx] at hxne
              simp at hxne
            have hxpos2 : ∀ x ∈ xs, 1 ≤ x := by
              intro x hx
              have hx2 := List.any_eq_false.mp hxpos x hx
              simp at hx2
              omega
            have hM : 1 ≤ intMax0 xs := intMax0_ge_one xs hxne2 hxpos2
            have hmape : xs.map Int.toNat ≠ [] := by
              simpa using hxne2
            have hie : (xs.map Int.toNat).isEmpty = false := by
              cases hx : xs.map Int.toNat with
              | nil => exact absurd hx hmape
              | cons a l => rfl
            simp only [mkConfig]
            refine ⟨?_, ?_, ?_⟩
            · rw [max_eq_right hM, toNat_max, natMax0_map_toNat, Nat.max_comm]
            · intro raw hraw
              simp [parseFields, hie, Nat.not_lt.mpr hraw]
            · intro raw hraw
              simp [parseFields, hie, hraw]
  · intro h
    simp only [parseArgs, parseOpts, eD1, eD2, eDo1, eDo2, eF, optStep, initOpt, List.headD_cons,
      List.headD_nil, finishArgs,
      (by decide : ('o' : Char) ≠ '1'), (by decide : ('o' : Char) ≠ '2'),
      (by decide : ('o' : Char) ≠ 'j'), (by decide : ('o' : Char) ≠ 't'),
      (by decide : ('o' : Char) ≠ 'C'), (by decide : ('o' : Char) ≠ 'a'),
      (by decide : ('o' : Char) ≠ 'v'), (by decide : ('2' : Char) ≠ '1'),
      eq_self_iff_true, if_true, if_false, true_or, or_true] at h
    rw [if_neg (by decide : ¬("f" : String) = "g")] at h
    split at h
    · simp at h
    · rename_i hcond
      rw [ParseResult.ok.injEq] at h
      obtain ⟨hcfg, -, -, -⟩ := h
      subst hcfg
      simp only [not_or, not_lt] at hcond
      refine ⟨rfl, ?_, fun raw => by simp [parseFields, mkConfig]⟩
      · simp only [mkConfig]
        rcases hcond with ⟨ha, hb⟩
        rw [max_eq_right (by omega : (1 : Int) ≤ atoi s1)]
  · intro h hne
    by_cases hg1 : (so.data.headD (Char.ofNat 0) = Char.ofNat 0 ∨ so.data.headD (Char.ofNat 0) = '-')
    · simp only [parseArgs, parseOpts, eD1, eD2, eDo1, eDo2, eF, optStep, initOpt, List.headD_cons,
      List.headD_nil, finishArgs,
      (by decide : ('o' : Char) ≠ '1'), (by decide : ('o' : Char) ≠ '2'),
      (by decide : ('o' : Char) ≠ 'j'), (by decide : ('o' : Char) ≠ 't'),
      (by decide : ('o' : Char) ≠ 'C'), (by decide : ('o' : Char) ≠ 'a'),
      (by decide : ('o' : Char) ≠ 'v'), (by decide : ('2' : Char) ≠ '1'),
      eq_self_iff_true, if_true, if_false, true_or, or_true, hg1] at h
      rw [if_neg (by decide : ¬("f" : String) = "g")] at h
      split at h
      · simp at h
      · rw [ParseResult.ok.injEq] at h
        obtain ⟨hcfg, -, -, -⟩ := h
        subst hcfg
        simp [mkConfig] at hne
    · rcases hread : readIntList so with _ | xs
      · simp only [parseArgs, parseOpts, eD1, eD2, eDo1, eDo2, eF, optStep, initOpt, List.headD_cons,
      List.headD_nil, finishArgs,
      (by decide : ('o' : Char) ≠ '1'), (by decide : ('o' : Char) ≠ '2'),
      (by decide : ('o' : Char) ≠ 'j'), (by decide : ('o' : Char) ≠ 't'),
      (by decide : ('o' : Char) ≠ 'C'), (by decide : ('o' : Char) ≠ 'a'),
      (by decide : ('o' : Char) ≠ 'v'), (by decide : ('2' : Char) ≠ '1'),
      eq_self_iff_true, if_true, if_false, true_or, or_true, hg1, hread] at h
        exact absurd h (by simp)
      · by_cases hval : (xs.isEmpty = true ∨ (xs.any fun x => decide (x < 1)) = true)
        · simp only [parseArgs, parseOpts, eD1, eD2, eDo1, eDo2, eF, optStep, initOpt, List.headD_cons,
      List.headD_nil, finishArgs,
      (by decide : ('o' : Char) ≠ '1'), (by decide : ('o' : Char) ≠ '2'),
      (by decide : ('o' : Char) ≠ 'j'), (by decide : ('o' : Char) ≠ 't'),
      (by decide : ('o' : Char) ≠ 'C'), (by decide : ('o' : Char) ≠ 'a'),
      (by decide : ('o' : Char) ≠ 'v'), (by decide : ('2' : Char) ≠ '1'),
      eq_self_iff_true, if_true, if_false, true_or, or_true, hg1, hread, hval] at h
          exact absurd h (by simp)
        · simp only [parseArgs, parseOpts, eD1, eD2, eDo1, eDo2, eF, optStep, initOpt, List.headD_cons,
      List.headD_nil, finishArgs,
      (by decide : ('o' : Char) ≠ '1'), (by decide : ('o' : Char) ≠ '2'),
      (by decide : ('o' : Char) ≠ 'j'), (by decide : ('o' : Char) ≠ 't'),
      (by decide : ('o' : Char) ≠ 'C'), (by decide : ('o' : Char) ≠ 'a'),
      (by decide : ('o' : Char) ≠ 'v'), (by decide : ('2' : Char) ≠ '1'),
      eq_self_iff_true, if_true, if_false, true_or, or_true, hg1, hread, hval] at h
          rw [if_neg (by decide : ¬("f" : String) = "g")] at h
          split at h
          · simp at h
          · rename_i hcond
            rw [ParseResult.ok.injEq] at h
            obtain ⟨hcfg, -, -, -⟩ := h
            subst hcfg
            simp only [not_or, not_lt] at hcond
            have hge : (1 : Int) ≤ atoi s1 := by
              rcases hcond with ⟨ha, hb⟩
              omega
            simp only [not_or, Bool.not_eq_true] at hval
            obtain ⟨hxne, hxpos⟩ := hval
            have hxne2 : xs ≠ [] := by
              intro hx
              rw [hx] at hxne
              simp at hxne
            have hxpos2 : ∀ x ∈ xs, 1 ≤ x := by
              intro x hx
              have hx2 := List.any_eq_false.mp hxpos x hx
              simp at hx2
              omega
            have hM : 1 ≤ intMax0 xs := intMax0_ge_one xs hxne2 hxpos2
            have hmape : xs.map Int.toNat ≠ [] := by
              simpa using hxne2
            have hie : (xs.map Int.toNat).isEmpty = false := by
              cases hx : xs.map Int.toNat with
              | nil => exact absurd hx hmape
              | cons a l => rfl
            simp only [mkConfig]
            refine ⟨?_, ?_, ?_⟩
            · rw [max_eq_right hM, toNat_max, natMax0_map_toNat, Nat.max_comm]
            · intro raw hraw
              simp [parseFields, hie, Nat.not_lt.mpr hraw]
            · intro raw hraw
              simp [parseFields, hie, hraw]
  · intro h
    simp only [parseArgs, parseOpts, eD1, eD2, eDo1, eDo2, eF, optStep, initOpt, List.headD_cons,
      List.headD_nil, finishArgs,
      (by decide : ('o' : Char) ≠ '1'), (by decide : ('o' : Char) ≠ '2'),
      (by decide : ('o' : Char) ≠ 'j'), (by decide : ('o' : Char) ≠ 't'),
      (by decide : ('o' : Char) ≠ 'C'), (by decide : ('o' : Char) ≠ 'a'),
      (by decide : ('o' : Char) ≠ 'v'), (by decide : ('2' : Char) ≠ '1'),
      eq_self_iff_true, if_true, if_false, true_or, or_true] at h
    rw [if_neg (by decide : ¬("f" : String) = "g")] at h
    split at h
    · simp at h
    · rename_i hcond
      rw [ParseResult.ok.injEq] at h
      obtain ⟨hcfg, -, -, -⟩ := h
      subst hcfg
      simp only [not_or, not_lt] at hcond
      refine ⟨rfl, ?_, fun raw => by simp [parseFields, mkConfig]⟩
      · simp only [mkConfig]
        rcases hcond with ⟨ha, hb⟩
        rw [max_eq_right (by omega : (1 : Int) ≤ atoi s1)]

/-- Configuration produced by `-1 3 -o1 2,4`. -/
def cfgO1 : Config := ⟨3, 1, 4, 1, [2, 4], [], 0, false, true, '\t', false, 0⟩

/-- Configuration produced by `-1 3` alone. -/
def cfgB1 : Config := ⟨3, 1, 3, 1, [], [], 0, false, true, '\t', false, 0⟩

/-- Configuration produced by `-2 3 -o2 2,4`. -/
def cfgO2 : Config := ⟨1, 3, 1, 4, [], [2, 4], 0, false, true, '\t', false, 0⟩

/-- Configuration produced by `-2 3` alone. -/
def cfgB2 : Config := ⟨1, 3, 1, 3, [], [], 0, false, true, '\t', false, 0⟩

/-- Witness for C10 at `-1 3 -o1 2,4` (and the three variant argument
vectors): the required field count is `max 3 4 = 4`, over-long lines are
truncated to it, short lines fail, and without `-o1` the whole line is
kept. -/
theorem C10_witness :
    (cfgO1.req1 = max cfgO1.field1 (natMax0 cfgO1.outfields1) ∧
     (∀ raw : List FieldStr, cfgO1.req1 ≤ raw.length →
       parseFields cfgO1.field1 cfgO1.req1 cfgO1.outfields1 raw = some (raw.take cfgO1.req1)) ∧
     (∀ raw : List FieldStr, raw.length < cfgO1.req1 →
       parseFields cfgO1.field1 cfgO1.req1 cfgO1.outfields1 raw = none)) ∧
    (cfgB1.outfields1 = [] ∧ cfgB1.req1 = cfgB1.field1 ∧
     (∀ raw : List FieldStr, parseFields cfgB1.field1 cfgB1.req1 cfgB1.outfields1 raw =
       if raw.length < cfgB1.field1 then none else some raw)) ∧
    (cfgO2.req2 = max cfgO2.field2 (natMax0 cfgO2.outfields2) ∧
     (∀ raw : List FieldStr, cfgO2.req2 ≤ raw.length →
       parseFields cfgO2.field2 cfgO2.req2 cfgO2.outfields2 raw = some (raw.take cfgO2.req2)) ∧
     (∀ raw : List FieldStr, raw.length < cfgO2.req2 →
       parseFields cfgO2.field2 cfgO2.req2 cfgO2.outfields2 raw = none)) ∧
    (cfgB2.outfields2 = [] ∧ cfgB2.req2 = cfgB2.field2 ∧
     (∀ raw : List FieldStr, parseFields cfgB2.field2 cfgB2.req2 cfgB2.outfields2 raw =
       if raw.length < cfgB2.field2 then none else some raw)) :=
  have h := C10_parse_bound false 0 "3" "2,4" cfgO1 cfgB1 cfgO2 cfgB2
    "f" "g" "f" "g" "f" "g" "f" "g" false false false false
  ⟨h.1 rfl (by decide), h.2.1 rfl, h.2.2.1 rfl (by decide), h.2.2.2 rfl⟩
